import Mathlib

/-!
Verification development for the job-hunting pipeline.

The Lean definitions below are a shallow embedding of the Python sources:

* `src/storage/sheets_repository.py` (`SheetsRepository`): the tabular
  upsert repository (header evolution, link index, row composition);
* `src/job_search.py` (`search_jobs_for_role`): the aggregator over
  providers and locations;
* `src/ai/enrichment.py` (`enrich_job` and its helpers): the AI
  enrichment adapter with its retry loop.

Python dictionaries are modelled as insertion-ordered association lists
(`alookup` is `dict.get`, `aset` is `d[k] = v`: it replaces the value at
the first occurrence of the key, else appends, which matches CPython's
insertion-order-preserving dicts whose keys are unique).  The spreadsheet
backend is a list of rows plus a write counter, so that "no write was
issued" is expressible.  External collaborators (the network, the JSON
decoder of the standard library, module loading) are parameters of the
corresponding definitions.
-/

namespace JobSpec

/-- The empty string, named so it can follow an identifier without forming
a literal juxtaposition. -/
def blank : String := ""

/-! ### Ordered-dictionary helpers -/

/-- `dict.get key` on an insertion-ordered dictionary. -/
def alookup {α : Type} : List (String × α) → String → Option α
  | [], _ => none
  | (k, v) :: t, key => if k = key then some v else alookup t key

/-- `d[key] = v`: replace the value at the first occurrence of `key`,
otherwise append `(key, v)` at the end (CPython dict assignment). -/
def aset {α : Type} : List (String × α) → String → α → List (String × α)
  | [], key, v => [(key, v)]
  | (k, w) :: t, key, v => if k = key then (key, v) :: t else (k, w) :: aset t key v

theorem alookup_aset_self {α : Type} (m : List (String × α)) (k : String) (v : α) :
    alookup (aset m k v) k = some v := by
  induction m with
  | nil => simp [aset, alookup]
  | cons h t ih =>
    obtain ⟨k', w⟩ := h
    by_cases hk : k' = k
    · simp [aset, hk, alookup]
    · simp [aset, hk, alookup, ih]

theorem alookup_aset_ne {α : Type} (m : List (String × α)) (k k' : String) (v : α)
    (h : k' ≠ k) : alookup (aset m k v) k' = alookup m k' := by
  induction m with
  | nil => simp [aset, alookup, Ne.symm h]
  | cons hd t ih =>
    obtain ⟨k₀, w⟩ := hd
    by_cases hk : k₀ = k
    · subst hk
      simp [aset, alookup, Ne.symm h]
    · simp only [aset, if_neg hk, alookup]
      by_cases hk' : k₀ = k'
      · simp [hk']
      · simp [hk', ih]

theorem alookup_append_left {α : Type} (m t : List (String × α)) (k : String) (v : α)
    (h : alookup m k = some v) : alookup (m ++ t) k = some v := by
  induction m with
  | nil => simp [alookup] at h
  | cons hd tl ih =>
    obtain ⟨k₀, w⟩ := hd
    by_cases hk : k₀ = k
    · simpa [alookup, hk] using h
    · simp only [alookup, if_neg hk] at h
      simpa [alookup, hk] using ih h

theorem alookup_mem {α : Type} (m : List (String × α)) (k : String) (v : α)
    (h : alookup m k = some v) : (k, v) ∈ m := by
  induction m with
  | nil => simp [alookup] at h
  | cons hd tl ih =>
    obtain ⟨k₀, w⟩ := hd
    by_cases hk : k₀ = k
    · subst hk
      have hw : w = v := by simpa [alookup] using h
      exact hw ▸ List.mem_cons_self _ _
    · simp only [alookup, if_neg hk] at h
      exact List.mem_cons_of_mem _ (ih h)

theorem mem_aset {α : Type} (m : List (String × α)) (k : String) (v : α)
    (e : String × α) (h : e ∈ aset m k v) : e = (k, v) ∨ e ∈ m := by
  induction m with
  | nil => simpa [aset] using h
  | cons hd tl ih =>
    obtain ⟨k₀, w⟩ := hd
    by_cases hk : k₀ = k
    · simp only [aset, if_pos hk] at h
      rcases List.mem_cons.mp h with h1 | h2
      · exact Or.inl h1
      · exact Or.inr (List.mem_cons_of_mem _ h2)
    · simp only [aset, if_neg hk] at h
      rcases List.mem_cons.mp h with h1 | h2
      · exact Or.inr (h1 ▸ List.mem_cons_self _ _)
      · rcases ih h2 with h3 | h4
        · exact Or.inl h3
        · exact Or.inr (List.mem_cons_of_mem _ h4)

/-! ### String helpers mirroring the Python `str` methods used by the code

They are written over `List Char` so that concrete evaluations reduce in
the kernel. -/

/-- `s.map f` over the characters of a string. -/
def mapChars (f : Char → Char) (s : String) : String := String.mk (s.data.map f)

/-- Python `str.lower` (ASCII-faithful). -/
def lowerStr (s : String) : String := mapChars Char.toLower s

/-- Python `str.replace (a, b)` for one-character patterns, which is the
only form the repository uses. -/
def replChar (a b : Char) (s : String) : String :=
  mapChars (fun c => if c = a then b else c) s

/-- Python `str.strip()`: drop leading and trailing whitespace. -/
def stripStr (s : String) : String :=
  String.mk (((s.data.dropWhile Char.isWhitespace).reverse.dropWhile
    Char.isWhitespace).reverse)

/-- Python `str.capitalize()`: first character upper-cased, the rest
lower-cased. -/
def capitalizePy (s : String) : String :=
  match s.data with
  | [] => blank
  | c :: rest => String.mk (c.toUpper :: rest.map Char.toLower)

def splitCharAux (sep : Char) : List Char → List Char → List String
  | [], cur => [String.mk cur.reverse]
  | c :: rest, cur =>
    if c = sep then String.mk cur.reverse :: splitCharAux sep rest []
    else splitCharAux sep rest (c :: cur)

/-- Python `str.split (sep)` for a one-character separator (keeps empty
segments, as Python does for an explicit separator). -/
def splitChar (sep : Char) (s : String) : List String := splitCharAux sep s.data []

/-- `" ".join (words)`. -/
def joinSpace : List String → String
  | [] => blank
  | [w] => w
  | w :: rest => w ++ (" ") ++ joinSpace rest

/-! ### `SheetsRepository` static helpers -/

/-- `SheetsRepository._normalize_key`: trim, lower-case, spaces and then
hyphens to underscores. -/
def normalize_key (key : String) : String :=
  replChar ('-') ('_') (replChar (' ') ('_') (lowerStr (stripStr key)))

/-- `SheetsRepository._header_to_key`: lower-case, spaces to underscores. -/
def header_to_key (header : String) : String :=
  replChar (' ') ('_') (lowerStr header)

/-- `SheetsRepository._key_to_header`: hyphens to underscores, split on
underscores, capitalize the non-empty words, join with spaces. -/
def key_to_header (key : String) : String :=
  joinSpace (((splitChar ('_') (replChar ('-') ('_') key)).filter
    (fun w => w ≠ blank)).map capitalizePy)

/-- `SheetsRepository.BASE_HEADER`. -/
def BASE_HEADER : List String :=
  ["Fetched At (UTC)", "Role", "Job Title", "Source", "Link"]

/-- `SheetsRepository.ENRICHMENT_KEYS`. -/
def ENRICHMENT_KEYS : List String :=
  ["ai_fit_score", "ai_summary", "ai_outreach_angle"]

/-! ### The spreadsheet backend

`rows` are the stored rows (row 1 of the sheet is `rows[0]`); `writes`
counts the update/append calls issued to the backend, so that "no write
was issued" can be stated. -/

structure Sheet where
  rows : List (List String)
  writes : Nat
deriving DecidableEq, Repr

/-- `sheet.update ("A" ++ toString i, [row])` for a 1-based row number `i`:
replace row `i`, extending the sheet with empty rows if it is shorter. -/
def sheetUpdateRow (sh : Sheet) (i : Nat) (row : List String) : Sheet :=
  let j := i - 1
  if j < sh.rows.length then
    { rows := sh.rows.set j row, writes := sh.writes + 1 }
  else
    { rows := sh.rows ++ List.replicate (j - sh.rows.length) [] ++ [row],
      writes := sh.writes + 1 }

/-- `sheet.append_row (row)`. -/
def sheetAppend (sh : Sheet) (row : List String) : Sheet :=
  { rows := sh.rows ++ [row], writes := sh.writes + 1 }

/-! ### Repository state and operations -/

/-- The mutable fields of a `SheetsRepository` instance, together with the
backing sheet. -/
structure RepoState where
  sheet : Sheet
  header : List String
  key_to_header_map : List (String × String)
  rows_by_link : List (String × (Nat × List String))
  row_count : Nat
deriving DecidableEq, Repr

/-- `SheetsRepository._ensure_header`: rewrite row 1 with the in-memory
header. -/
def ensure_header (s : RepoState) : RepoState :=
  { s with sheet := sheetUpdateRow s.sheet 1 s.header }

/-- `SheetsRepository._prepare_header`: base header plus the stored extra
columns in order, skipping names already present. -/
def prepare_header (existing_header : List String) : List String :=
  existing_header.foldl
    (fun header column => if column ∈ header then header else header ++ [column])
    BASE_HEADER

/-- The dict comprehension `{_header_to_key (c): c for c in header}`. -/
def buildKeyToHeader (header : List String) : List (String × String) :=
  header.foldl (fun m c => aset m (header_to_key c) c) []

/-- `self.header.index ("Link")` guarded by the membership test. -/
def listIdx : List String → String → Option Nat
  | [], _ => none
  | y :: t, x => if y = x then some 0 else (listIdx t x).map (· + 1)

/-- The index-building loop of `_initialize`: `enumerate (existing[1:],
start=2)`, skipping rows with a falsy link cell and padding short rows to
the header's width. -/
def buildIndex (headerLen : Nat) (linkIdx : Nat) :
    List (List String) → Nat → List (String × (Nat × List String)) →
    List (String × (Nat × List String))
  | [], _, acc => acc
  | row :: rest, n, acc =>
    let link := (row.get? linkIdx).getD blank
    if link = blank then buildIndex headerLen linkIdx rest (n + 1) acc
    else
      buildIndex headerLen linkIdx rest (n + 1)
        (aset acc link (n, row ++ List.replicate (headerLen - row.length) blank))

/-- `SheetsRepository._initialize`, as a function of the pre-existing
backend contents. -/
def initRepoState (backend : Sheet) : RepoState :=
  match backend.rows with
  | [] =>
    let header := BASE_HEADER
    ensure_header
      { sheet := backend, header := header,
        key_to_header_map := buildKeyToHeader header,
        rows_by_link := [], row_count := 1 }
  | header_row :: dataRows =>
    let header := prepare_header header_row
    let s0 : RepoState :=
      { sheet := backend, header := header,
        key_to_header_map := buildKeyToHeader header,
        rows_by_link := [], row_count := 0 }
    let s1 := if header = header_row then s0 else ensure_header s0
    let rbl :=
      match listIdx header ("Link") with
      | none => []
      | some li => buildIndex header.length li dataRows 2 []
    { s1 with rows_by_link := rbl, row_count := dataRows.length + 1 }

/-- While loop of `_ensure_dynamic_keys`: try `base`, then `base ++ " 2"`,
`base ++ " 3"`, … until the label is not in the header.  The loop visits
pairwise-distinct candidate labels, so it terminates after at most
`header.length` collisions; `fuel` is set accordingly by `freshLabel` and
is never exhausted on the loop's actual inputs. -/
def freshSuffix (header : List String) (base : String) : Nat → Nat → String
  | 0, n => base ++ (" ") ++ toString n
  | fuel + 1, n =>
    let cand := base ++ (" ") ++ toString n
    if cand ∈ header then freshSuffix header base fuel (n + 1) else cand

/-- Collision-resolved display label for `_ensure_dynamic_keys`. -/
def freshLabel (header : List String) (base : String) : String :=
  if base ∈ header then freshSuffix header base (header.length + 1) 2 else base

/-- The `for key in keys` loop of `_ensure_dynamic_keys`, threading the
header, the key-to-label dictionary and the `added` flag. -/
def ensureStep : List String → List String → List (String × String) → Bool →
    List String × List (String × String) × Bool
  | [], header, m, added => (header, m, added)
  | key :: rest, header, m, added =>
    if key = blank then ensureStep rest header m added
    else if (alookup m key).isSome then ensureStep rest header m added
    else
      let label := freshLabel header (key_to_header key)
      ensureStep rest (header ++ [label]) (m ++ [(key, label)]) true

/-- `SheetsRepository._ensure_dynamic_keys`: register columns for the new
keys and rewrite the header row in the backend when anything was added. -/
def ensure_dynamic_keys (s : RepoState) (keys : List String) : RepoState :=
  let r := ensureStep keys s.header s.key_to_header_map false
  let s' := { s with header := r.1, key_to_header_map := r.2.1 }
  if r.2.2 then ensure_header s' else s'

/-- `SheetsRepository.__init__` (with the injected worksheet contents):
`_initialize` followed by `_ensure_dynamic_keys (ENRICHMENT_KEYS)`. -/
def repoInit (backend : Sheet) : RepoState :=
  ensure_dynamic_keys (initRepoState backend) ENRICHMENT_KEYS

/-- `SheetsRepository._merge_dynamic_fields`: fold metadata then enrichment
into one dictionary under sanitized keys, dropping keys that sanitize to
the empty string. -/
def merge_dynamic_fields (metadata enrichment : Option (List (String × String))) :
    List (String × String) :=
  let add := fun (acc : List (String × String)) (payload : List (String × String)) =>
    payload.foldl
      (fun a kv =>
        let nk := normalize_key kv.1
        if nk = blank then a else aset a nk kv.2)
      acc
  add (add [] (metadata.getD [])) (enrichment.getD [])

/-- The `base_values` dictionary built inside `upsert_job` (`x or ""`
renders an absent argument as the empty string). -/
def mkBaseValues (fetched_at role title source : Option String) (link : String) :
    List (String × String) :=
  [("Fetched At (UTC)", fetched_at.getD blank),
   ("Role", role.getD blank),
   ("Job Title", title.getD blank),
   ("Source", source.getD blank),
   ("Link", link)]

/-- `SheetsRepository._compose_row`: one cell per header column, base
columns from `base_values`, every other column from the dynamic mapping
under the column's sanitized key, defaulting to the empty string. -/
def compose_row (header : List String) (base_values dynamic_values : List (String × String)) :
    List String :=
  header.map fun column =>
    match alookup base_values column with
    | some v => v
    | none => (alookup dynamic_values (header_to_key column)).getD blank

/-- `SheetsRepository.upsert_job`.  The `ValueError` for an empty link is
the `.error` branch; it is raised before any state is touched, so the
caller's repository and backend are unchanged in that case. -/
def upsert_job (s : RepoState) (fetched_at role title source : Option String)
    (link : String) (metadata enrichment : Option (List (String × String))) :
    Except String (RepoState × Bool) :=
  if link = blank then Except.error ("A job link is required to upsert a record.")
  else
    let dynamic_values := merge_dynamic_fields metadata enrichment
    let s1 := ensure_dynamic_keys s (dynamic_values.map Prod.fst)
    let base_values := mkBaseValues fetched_at role title source link
    let row_data := compose_row s1.header base_values dynamic_values
    match alookup s1.rows_by_link link with
    | some (row_index, _) =>
      Except.ok
        ({ s1 with sheet := sheetUpdateRow s1.sheet row_index row_data,
                   rows_by_link := aset s1.rows_by_link link (row_index, row_data) },
         false)
    | none =>
      Except.ok
        ({ s1 with sheet := sheetAppend s1.sheet row_data,
                   row_count := s1.row_count + 1,
                   rows_by_link := aset s1.rows_by_link link (s1.row_count + 1, row_data) },
         true)

/-- `SheetsRepository.has_link`: pure lookup against the in-memory
index. -/
def has_link (s : RepoState) (link : String) : Bool :=
  (alookup s.rows_by_link link).isSome

/-- Run an upsert and keep the resulting state, or the unchanged input
state when the call errors (which mirrors a caught exception on the
Python side). -/
def upsertD (s : RepoState) (fetched_at role title source : Option String)
    (link : String) (metadata enrichment : Option (List (String × String))) : RepoState :=
  match upsert_job s fetched_at role title source link metadata enrichment with
  | Except.ok (s', _) => s'
  | Except.error _ => s

/-! ### Supporting lemmas about the repository operations -/

theorem compose_row_length (header : List String) (b d : List (String × String)) :
    (compose_row header b d).length = header.length := by
  simp [compose_row]

theorem ensure_rows_by_link (s : RepoState) (ks : List String) :
    (ensure_dynamic_keys s ks).rows_by_link = s.rows_by_link := by
  simp only [ensure_dynamic_keys, ensure_header]
  split <;> rfl

theorem ensure_row_count (s : RepoState) (ks : List String) :
    (ensure_dynamic_keys s ks).row_count = s.row_count := by
  simp only [ensure_dynamic_keys, ensure_header]
  split <;> rfl

theorem ensure_header_val (s : RepoState) (ks : List String) :
    (ensure_dynamic_keys s ks).header =
      (ensureStep ks s.header s.key_to_header_map false).1 := by
  simp only [ensure_dynamic_keys, ensure_header]
  split <;> rfl

theorem ensure_kth_val (s : RepoState) (ks : List String) :
    (ensure_dynamic_keys s ks).key_to_header_map =
      (ensureStep ks s.header s.key_to_header_map false).2.1 := by
  simp only [ensure_dynamic_keys, ensure_header]
  split <;> rfl

theorem sheetUpdateRow_rows_get (sh : Sheet) (i : Nat) (row : List String) :
    (sheetUpdateRow sh i row).rows[i - 1]? = some row := by
  unfold sheetUpdateRow
  by_cases hj : i - 1 < sh.rows.length
  · simp only [if_pos hj]
    exact List.getElem?_set_eq_of_lt row hj
  · push_neg at hj
    simp only [if_neg (not_lt.mpr hj)]
    have hlen : (sh.rows ++ List.replicate (i - 1 - sh.rows.length) ([] : List String)).length
        = i - 1 := by
      simp only [List.length_append, List.length_replicate]
      omega
    calc ((sh.rows ++ List.replicate (i - 1 - sh.rows.length) []) ++ [row])[i - 1]?
        = ((sh.rows ++ List.replicate (i - 1 - sh.rows.length) []) ++ [row])[
            (sh.rows ++ List.replicate (i - 1 - sh.rows.length) ([] : List String)).length]? := by
          rw [hlen]
      _ = some row := List.getElem?_concat_length _ _

theorem sheetUpdateRow_rows_length (sh : Sheet) (i : Nat) (row : List String)
    (h : i - 1 < sh.rows.length) :
    (sheetUpdateRow sh i row).rows.length = sh.rows.length := by
  unfold sheetUpdateRow
  simp [h]

theorem ensure_sheet_rows_length (s : RepoState) (ks : List String)
    (h : 1 ≤ s.sheet.rows.length) :
    (ensure_dynamic_keys s ks).sheet.rows.length = s.sheet.rows.length := by
  simp only [ensure_dynamic_keys, ensure_header]
  split
  · exact sheetUpdateRow_rows_length _ _ _ (by omega)
  · rfl

/-- Structural invariants of a repository state: the row counter matches
the backend length, the sheet holds at least the header row, and every
indexed position lies between 2 and the row counter.  These hold for every
state produced by `repoInit` and are preserved by the operations. -/
def WFRepo (s : RepoState) : Prop :=
  s.row_count = s.sheet.rows.length ∧ 1 ≤ s.row_count ∧
    ∀ e ∈ s.rows_by_link, 2 ≤ e.2.1 ∧ e.2.1 ≤ s.row_count

instance (s : RepoState) : Decidable (WFRepo s) := by
  unfold WFRepo
  infer_instance

theorem WFRepo.pos_lt {s : RepoState} (hwf : WFRepo s) {l : String} {i : Nat}
    {r : List String} (h : alookup s.rows_by_link l = some (i, r)) :
    i - 1 < s.sheet.rows.length := by
  obtain ⟨h1, _, h3⟩ := hwf
  have h4 := h3 _ (alookup_mem _ _ _ h)
  simp only at h4
  omega

/-- The repository state after the `_ensure_dynamic_keys` step of an
`upsert_job` call with the given payloads. -/
def upsertEnsured (s : RepoState) (md en : Option (List (String × String))) : RepoState :=
  ensure_dynamic_keys s ((merge_dynamic_fields md en).map Prod.fst)

/-- The row an `upsert_job` call composes. -/
def upsertRow (s : RepoState) (f r t src : Option String) (link : String)
    (md en : Option (List (String × String))) : List String :=
  compose_row (upsertEnsured s md en).header (mkBaseValues f r t src link)
    (merge_dynamic_fields md en)

/-- `upsert_job` unfolded, insert branch. -/
theorem upsert_job_insert (s : RepoState) (f r t src : Option String) (link : String)
    (md en : Option (List (String × String))) (hlink : link ≠ blank)
    (halk : alookup s.rows_by_link link = none) :
    upsert_job s f r t src link md en = Except.ok
      ({ upsertEnsured s md en with
          sheet := sheetAppend (upsertEnsured s md en).sheet (upsertRow s f r t src link md en),
          row_count := (upsertEnsured s md en).row_count + 1,
          rows_by_link := aset (upsertEnsured s md en).rows_by_link link
            ((upsertEnsured s md en).row_count + 1, upsertRow s f r t src link md en) },
       true) := by
  have h2 : alookup (upsertEnsured s md en).rows_by_link link = none := by
    rw [upsertEnsured, ensure_rows_by_link]
    exact halk
  simp only [upsert_job, if_neg hlink, upsertEnsured, upsertRow] at h2 ⊢
  rw [h2]

/-- `upsert_job` unfolded, update branch. -/
theorem upsert_job_update (s : RepoState) (f r t src : Option String) (link : String)
    (md en : Option (List (String × String))) (i : Nat) (r0 : List String)
    (hlink : link ≠ blank)
    (halk : alookup s.rows_by_link link = some (i, r0)) :
    upsert_job s f r t src link md en = Except.ok
      ({ upsertEnsured s md en with
          sheet := sheetUpdateRow (upsertEnsured s md en).sheet i
            (upsertRow s f r t src link md en),
          rows_by_link := aset (upsertEnsured s md en).rows_by_link link
            (i, upsertRow s f r t src link md en) },
       false) := by
  have h2 : alookup (upsertEnsured s md en).rows_by_link link = some (i, r0) := by
    rw [upsertEnsured, ensure_rows_by_link]
    exact halk
  simp only [upsert_job, if_neg hlink, upsertEnsured, upsertRow] at h2 ⊢
  rw [h2]

theorem initRepoState_header (backend : Sheet) :
    (initRepoState backend).header =
      match backend.rows with
      | [] => BASE_HEADER
      | hr :: _ => prepare_header hr := by
  obtain ⟨rows, w⟩ := backend
  cases rows with
  | nil => rfl
  | cons hr dr =>
    simp only [initRepoState]
    split <;> rfl

theorem initRepoState_rbl (backend : Sheet) :
    (initRepoState backend).rows_by_link =
      match backend.rows with
      | [] => []
      | hr :: dr =>
        match listIdx (prepare_header hr) ("Link") with
        | none => []
        | some li => buildIndex (prepare_header hr).length li dr 2 [] := by
  obtain ⟨rows, w⟩ := backend
  cases rows with
  | nil => rfl
  | cons hr dr => rfl

/-- Every entry `buildIndex` adds is a backend row padded to the derived
header's width. -/
theorem buildIndex_spec (headerLen linkIdx : Nat) (D : List (List String)) :
    ∀ (rows : List (List String)) (n : Nat) (acc : List (String × (Nat × List String))),
      (∀ r ∈ rows, r ∈ D) →
      (∀ e ∈ acc, ∃ orig ∈ D,
        e.2.2 = orig ++ List.replicate (headerLen - orig.length) blank) →
      ∀ e ∈ buildIndex headerLen linkIdx rows n acc, ∃ orig ∈ D,
        e.2.2 = orig ++ List.replicate (headerLen - orig.length) blank := by
  intro rows
  induction rows with
  | nil => intro n acc _ hacc e he; exact hacc e he
  | cons row rest ih =>
    intro n acc hsub hacc e he
    simp only [buildIndex] at he
    by_cases hl : ((row.get? linkIdx).getD blank) = blank
    · rw [if_pos hl] at he
      exact ih (n + 1) acc (fun r hr => hsub r (List.mem_cons_of_mem _ hr)) hacc e he
    · rw [if_neg hl] at he
      refine ih (n + 1) _ (fun r hr => hsub r (List.mem_cons_of_mem _ hr)) ?_ e he
      intro e' he'
      rcases mem_aset _ _ _ _ he' with h1 | h2
      · subst h1
        exact ⟨row, hsub row (List.mem_cons_self _ _), rfl⟩
      · exact hacc e' h2

/-! ### Claim C1 -/

/-- Reachable state where an index row is shorter than the current header:
an empty backend, then an upsert without metadata, then an upsert whose
metadata grows the header. -/
def c1S2 : RepoState :=
  upsertD (upsertD (repoInit ⟨[], 0⟩) none none none none ("L") none none)
    none none none none ("M") (some [("location", "Toronto")]) none

/-- C1, counterexample.  The claim asserts that in every reachable state
every row stored in `rows_by_link` and in the backend has the current
header's length.  In the state reached by initialization on an empty
backend, an upsert of link "L" without metadata, and an upsert of link "M"
whose metadata adds a `Location` column, the header has 9 columns while
the stored row for "L" (both in the index and in the backend) still has 8
cells. -/
theorem c1_row_width_invariant_fails :
    ∃ i row, alookup c1S2.rows_by_link ("L") = some (i, row) ∧
      row.length ≠ c1S2.header.length ∧
      c1S2.sheet.rows[i - 1]? = some row := by
  refine ⟨2, ["", "", "", "", "L", "", "", ""], by decide, by decide, by decide⟩

/-- C1, amended.  Rows have the header's width at the time they are
written: every row a successful `upsert_job` stores in the link index is
also the row written to the backend at its position, and its length equals
the header's length right after that call; and at `_initialize` every
indexed row is the corresponding backend data row padded with empty
strings up to the derived header's width (rows already longer keep their
length).  Rows stored earlier are not re-padded when the header later
grows. -/
theorem c1_row_width_at_write :
    (∀ (s : RepoState) (f r t src : Option String) (link : String)
        (md en : Option (List (String × String))) (s' : RepoState) (b : Bool),
      WFRepo s → link ≠ blank →
      upsert_job s f r t src link md en = Except.ok (s', b) →
      ∃ i row, alookup s'.rows_by_link link = some (i, row) ∧
        row.length = s'.header.length ∧
        s'.sheet.rows[i - 1]? = some row) ∧
    (∀ (backend : Sheet) (l : String) (i : Nat) (row : List String),
      alookup (initRepoState backend).rows_by_link l = some (i, row) →
      ∃ orig ∈ backend.rows.drop 1,
        row = orig ++
          List.replicate ((initRepoState backend).header.length - orig.length) blank) := by
  constructor
  · intro s f r t src link md en s' b hwf hlink hok
    rcases halk : alookup s.rows_by_link link with _ | ⟨i, r0⟩
    · rw [upsert_job_insert s f r t src link md en hlink halk] at hok
      simp only [Except.ok.injEq, Prod.mk.injEq] at hok
      obtain ⟨hs', hb⟩ := hok
      refine ⟨(upsertEnsured s md en).row_count + 1, upsertRow s f r t src link md en,
        ?_, ?_, ?_⟩
      · rw [← hs']
        exact alookup_aset_self _ _ _
      · rw [← hs']
        simp only [upsertRow, compose_row_length]
      · rw [← hs']
        simp only [sheetAppend]
        have hrc : (upsertEnsured s md en).row_count =
            (upsertEnsured s md en).sheet.rows.length := by
          rw [upsertEnsured, ensure_row_count,
            ensure_sheet_rows_length s _ (hwf.1 ▸ hwf.2.1)]
          exact hwf.1
        rw [Nat.add_sub_cancel, hrc]
        exact List.getElem?_concat_length _ _
    · rw [upsert_job_update s f r t src link md en i r0 hlink halk] at hok
      simp only [Except.ok.injEq, Prod.mk.injEq] at hok
      obtain ⟨hs', hb⟩ := hok
      refine ⟨i, upsertRow s f r t src link md en, ?_, ?_, ?_⟩
      · rw [← hs']
        exact alookup_aset_self _ _ _
      · rw [← hs']
        simp only [upsertRow, compose_row_length]
      · rw [← hs']
        exact sheetUpdateRow_rows_get _ _ _
  · intro backend l i row h
    rw [initRepoState_rbl] at h
    rw [initRepoState_header]
    obtain ⟨rows, w⟩ := backend
    cases rows with
    | nil => simp [alookup] at h
    | cons hr dr =>
      simp only at h ⊢
      rcases hli : listIdx (prepare_header hr) ("Link") with _ | li
      · rw [hli] at h
        simp [alookup] at h
      · rw [hli] at h
        have := buildIndex_spec (prepare_header hr).length li dr dr 2 []
          (fun r hr' => hr') (by intro e he; simp at he)
          (l, (i, row)) (alookup_mem _ _ _ h)
        obtain ⟨orig, horig, heq⟩ := this
        exact ⟨orig, by simpa using horig, heq⟩

/-- C1 witness: the amended statement applied to the empty-backend state
and a concrete upsert. -/
theorem c1_row_width_at_write_witness :
    ∃ i row,
      alookup (upsertD (repoInit ⟨[], 0⟩) none none none none ("L") none none).rows_by_link
        ("L") = some (i, row) ∧
      row.length = (upsertD (repoInit ⟨[], 0⟩) none none none none ("L") none none).header.length ∧
      (upsertD (repoInit ⟨[], 0⟩) none none none none ("L") none none).sheet.rows[i - 1]?
        = some row :=
  c1_row_width_at_write.1 (repoInit ⟨[], 0⟩) none none none none ("L") none none
    (upsertD (repoInit ⟨[], 0⟩) none none none none ("L") none none) true
    (by decide) (by decide) (by rfl)

/-! ### Claim C2 -/

/-- C2: upserting a link that is already indexed overwrites the row in
place: the backend row count does not grow, the index keeps the position
from the first insert, the index entry holds the newly composed row (which
is also what was written to the backend at that position), and the call
reports an update (`false`), not a creation. -/
theorem c2_upsert_existing_updates_in_place
    (s : RepoState) (f r t src : Option String) (link : String)
    (md en : Option (List (String × String))) (i : Nat) (r0 : List String)
    (hwf : WFRepo s) (hlink : link ≠ blank)
    (hidx : alookup s.rows_by_link link = some (i, r0)) :
    ∃ s', upsert_job s f r t src link md en = Except.ok (s', false) ∧
      s'.sheet.rows.length = s.sheet.rows.length ∧
      s'.row_count = s.row_count ∧
      alookup s'.rows_by_link link = some (i, upsertRow s f r t src link md en) ∧
      s'.sheet.rows[i - 1]? = some (upsertRow s f r t src link md en) := by
  have hlen : (upsertEnsured s md en).sheet.rows.length = s.sheet.rows.length := by
    rw [upsertEnsured]
    exact ensure_sheet_rows_length s _ (hwf.1 ▸ hwf.2.1)
  refine ⟨_, upsert_job_update s f r t src link md en i r0 hlink hidx, ?_, ?_, ?_, ?_⟩
  · show (sheetUpdateRow (upsertEnsured s md en).sheet i
        (upsertRow s f r t src link md en)).rows.length = s.sheet.rows.length
    rw [sheetUpdateRow_rows_length _ _ _ (hlen ▸ hwf.pos_lt hidx)]
    exact hlen
  · show (upsertEnsured s md en).row_count = s.row_count
    rw [upsertEnsured]
    exact ensure_row_count s _
  · exact alookup_aset_self _ _ _
  · exact sheetUpdateRow_rows_get _ _ _

/-- C2 witness: re-upserting link "L" into the state built by a first
insert updates in place at position 2. -/
theorem c2_upsert_existing_updates_in_place_witness :
    ∃ s', upsert_job (upsertD (repoInit ⟨[], 0⟩) none none none none ("L") none none)
        (some ("t2")) none none none ("L") (some [("location", "X")]) none
        = Except.ok (s', false) ∧
      s'.sheet.rows.length
        = (upsertD (repoInit ⟨[], 0⟩) none none none none ("L") none none).sheet.rows.length ∧
      s'.row_count = (upsertD (repoInit ⟨[], 0⟩) none none none none ("L") none none).row_count ∧
      alookup s'.rows_by_link ("L")
        = some (2, upsertRow (upsertD (repoInit ⟨[], 0⟩) none none none none ("L") none none)
            (some ("t2")) none none none ("L") (some [("location", "X")]) none) ∧
      s'.sheet.rows[2 - 1]?
        = some (upsertRow (upsertD (repoInit ⟨[], 0⟩) none none none none ("L") none none)
            (some ("t2")) none none none ("L") (some [("location", "X")]) none) :=
  c2_upsert_existing_updates_in_place
    (upsertD (repoInit ⟨[], 0⟩) none none none none ("L") none none)
    (some ("t2")) none none none ("L") (some [("location", "X")]) none
    2 (["", "", "", "", "L", "", "", ""]) (by decide) (by decide) (by decide)

/-! ### Claim C3 -/

/-- State after upserting metadata whose sanitized keys "foo" and "foo_"
both want the display label "Foo"; the second gets "Foo 2". -/
def c3S : RepoState :=
  upsertD (repoInit ⟨[], 0⟩) none none none none ("L")
    (some [("foo", "a"), ("foo-", "v")]) none

/-- The merged dynamic mapping of that call. -/
def c3Dyn : List (String × String) :=
  merge_dynamic_fields (some [("foo", "a"), ("foo-", "v")]) none

/-- C3, counterexample.  The claim says a column whose display label
received a numeric collision suffix still receives its key's value.  Here
the key "foo_" is recorded with label "Foo 2" (column 9), the merged
mapping holds "v" for "foo_", yet the composed and stored row carries the
empty string in column 9: `_compose_row` looks the column up under the
label's own sanitized key "foo_2", not under the recorded key. -/
theorem c3_suffixed_column_value_dropped :
    alookup c3S.key_to_header_map ("foo_") = some ("Foo 2") ∧
    listIdx c3S.header ("Foo 2") = some 9 ∧
    alookup c3Dyn ("foo_") = some ("v") ∧
    ∃ i row, alookup c3S.rows_by_link ("L") = some (i, row) ∧
      row[9]? = some blank ∧ blank ≠ ("v" : String) := by
  exact ⟨by decide, by decide, by decide, 2, ["", "", "", "", "L", "", "", "", "a", ""],
    by decide, by decide, by decide⟩

/-- C3, amended.  The row a successful upsert stores has one cell per
header column: a column named like a base column is filled from the
corresponding named argument (blank when absent), and every other column
is filled with the merged dynamic mapping's value under the *column
label's* sanitized key, or blank when that key is absent — so a column
whose label received a numeric collision suffix is looked up under the
suffixed label's key, and the originating key's value is not placed
there. -/
theorem c3_compose_row_characterization
    (s : RepoState) (f r t src : Option String) (link : String)
    (md en : Option (List (String × String))) (s' : RepoState) (b : Bool)
    (hlink : link ≠ blank)
    (hok : upsert_job s f r t src link md en = Except.ok (s', b)) :
    ∃ i row, alookup s'.rows_by_link link = some (i, row) ∧
      row.length = s'.header.length ∧
      ∀ (j : Nat) (col : String), s'.header[j]? = some col →
        row[j]? = some (match alookup (mkBaseValues f r t src link) col with
          | some v => v
          | none => (alookup (merge_dynamic_fields md en) (header_to_key col)).getD blank) := by
  rcases halk : alookup s.rows_by_link link with _ | ⟨i0, r0⟩
  · rw [upsert_job_insert s f r t src link md en hlink halk] at hok
    simp only [Except.ok.injEq, Prod.mk.injEq] at hok
    obtain ⟨hs', hb⟩ := hok
    subst hs'
    refine ⟨(upsertEnsured s md en).row_count + 1, upsertRow s f r t src link md en,
      alookup_aset_self _ _ _, by simp [upsertRow, compose_row_length], ?_⟩
    intro j col hcol
    simp only [upsertRow, compose_row] at hcol ⊢
    rw [List.getElem?_map, hcol]
    rfl
  · rw [upsert_job_update s f r t src link md en i0 r0 hlink halk] at hok
    simp only [Except.ok.injEq, Prod.mk.injEq] at hok
    obtain ⟨hs', hb⟩ := hok
    subst hs'
    refine ⟨i0, upsertRow s f r t src link md en,
      alookup_aset_self _ _ _, by simp [upsertRow, compose_row_length], ?_⟩
    intro j col hcol
    simp only [upsertRow, compose_row] at hcol ⊢
    rw [List.getElem?_map, hcol]
    rfl

/-- C3 witness: the amended characterization applied to the collision
state of the counterexample. -/
theorem c3_compose_row_characterization_witness :
    ∃ i row, alookup c3S.rows_by_link ("L") = some (i, row) ∧
      row.length = c3S.header.length ∧
      ∀ (j : Nat) (col : String), c3S.header[j]? = some col →
        row[j]? = some (match alookup (mkBaseValues none none none none ("L")) col with
          | some v => v
          | none =>
            (alookup (merge_dynamic_fields (some [("foo", "a"), ("foo-", "v")]) none)
              (header_to_key col)).getD blank) :=
  c3_compose_row_characterization (repoInit ⟨[], 0⟩) none none none none ("L")
    (some [("foo", "a"), ("foo-", "v")]) none c3S true (by decide) (by rfl)

/-! ### Claim C4 -/

/-- The spec's scenario call on an empty backend. -/
def c4Upsert : Except String (RepoState × Bool) :=
  upsert_job (repoInit ⟨[], 0⟩) (some ("2024-01-01T00:00:00Z")) (some ("Engineer"))
    (some ("X")) (some ("Indeed")) ("https://a/1") (some [("location", "Toronto")]) none

/-- The header the claim says the scenario produces. -/
def claimedC4Header : List String :=
  ["Fetched At (UTC)", "Role", "Job Title", "Source", "Link", "Location"]

/-- The header the code actually produces: `__init__` always registers the
three enrichment columns before any upsert. -/
def c4Header : List String :=
  ["Fetched At (UTC)", "Role", "Job Title", "Source", "Link",
   "Ai Fit Score", "Ai Summary", "Ai Outreach Angle", "Location"]

/-- The single data row the scenario produces. -/
def c4Row : List String :=
  ["2024-01-01T00:00:00Z", "Engineer", "X", "Indeed", "https://a/1", "", "", "", "Toronto"]

/-- C4, counterexample.  The scenario's stored header is not the claimed
six-column header: initialization registers `Ai Fit Score`, `Ai Summary`
and `Ai Outreach Angle` before the upsert. -/
theorem c4_scenario_header_differs :
    ∃ s', c4Upsert = Except.ok (s', true) ∧ s'.header ≠ claimedC4Header ∧
      s'.sheet.rows[0]? ≠ some claimedC4Header := by
  exact ⟨_, rfl, by decide, by decide⟩

/-- C4, amended.  The scenario creates the nine-column header (base
columns, the three enrichment columns, then `Location`), stores exactly
one data row below it, and reports a creation. -/
theorem c4_scenario_amended :
    ∃ s', c4Upsert = Except.ok (s', true) ∧ s'.header = c4Header ∧
      s'.sheet.rows = [c4Header, c4Row] := by
  exact ⟨_, rfl, by decide, by decide⟩

/-! ### Claim C5 -/

/-- C5: `upsert_job` raises exactly on an empty link, with the
`ValueError` message of the source; the check precedes every state
mutation and backend call, so on the error path the repository state and
the backend contents of the caller are untouched (the model returns no new
state on the error branch). -/
theorem c5_upsert_error_iff_empty_link (s : RepoState) (f r t src : Option String)
    (link : String) (md en : Option (List (String × String))) :
    upsert_job s f r t src link md en =
      Except.error ("A job link is required to upsert a record.") ↔ link = blank := by
  constructor
  · intro h
    by_contra hlink
    rcases halk : alookup s.rows_by_link link with _ | ⟨i, r0⟩
    · rw [upsert_job_insert s f r t src link md en hlink halk] at h
      simp at h
    · rw [upsert_job_update s f r t src link md en i r0 hlink halk] at h
      simp at h
  · intro h
    subst h
    simp [upsert_job]

/-- C5 witness: the empty link errors on a concrete state. -/
theorem c5_upsert_error_iff_empty_link_witness :
    upsert_job (repoInit ⟨[], 0⟩) none none none none blank none none =
      Except.error ("A job link is required to upsert a record.") :=
  (c5_upsert_error_iff_empty_link (repoInit ⟨[], 0⟩) none none none none blank
    none none).mpr rfl

/-! ### Claim C6 -/

theorem alookup_append_none {α : Type} (m t : List (String × α)) (k : String)
    (h : alookup m k = none) : alookup (m ++ t) k = alookup t k := by
  induction m with
  | nil => rfl
  | cons hd tl ih =>
    obtain ⟨k₀, w⟩ := hd
    by_cases hk : k₀ = k
    · simp [alookup, hk] at h
    · simp only [alookup, if_neg hk] at h
      simpa [alookup, hk] using ih h

theorem alookup_append_isSome {α : Type} (m t : List (String × α)) (k : String)
    (h : (alookup m k).isSome) : (alookup (m ++ t) k).isSome := by
  obtain ⟨v, hv⟩ := Option.isSome_iff_exists.mp h
  rw [alookup_append_left m t k v hv]
  rfl

/-- `_ensure_dynamic_keys` only appends to the key-to-label dictionary. -/
theorem ensureStep_m_extends :
    ∀ (keys header0 : List String) (m : List (String × String)) (added : Bool),
    ∃ t, (ensureStep keys header0 m added).2.1 = m ++ t := by
  intro keys
  induction keys with
  | nil => intro h m a; exact ⟨[], by simp [ensureStep]⟩
  | cons key rest ih =>
    intro h m a
    simp only [ensureStep]
    by_cases hk : key = blank
    · rw [if_pos hk]; exact ih h m a
    · rw [if_neg hk]
      by_cases hm : (alookup m key).isSome
      · rw [if_pos hm]; exact ih h m a
      · rw [if_neg hm]
        obtain ⟨t, ht⟩ := ih (h ++ [freshLabel h (key_to_header key)])
          (m ++ [(key, freshLabel h (key_to_header key))]) true
        exact ⟨[(key, freshLabel h (key_to_header key))] ++ t,
          by rw [ht, List.append_assoc]⟩

/-- After one pass, every non-empty key of the argument is registered. -/
theorem ensureStep_registers :
    ∀ (keys header0 : List String) (m : List (String × String)) (added : Bool)
      (k : String), k ∈ keys → k ≠ blank →
    (alookup (ensureStep keys header0 m added).2.1 k).isSome := by
  intro keys
  induction keys with
  | nil => intro h m a k hk; intro _; simp at hk
  | cons key rest ih =>
    intro h m a k hk hkb
    rcases List.mem_cons.mp hk with heq | hmem
    · subst heq
      simp only [ensureStep]
      rw [if_neg hkb]
      by_cases hm : (alookup m k).isSome
      · rw [if_pos hm]
        obtain ⟨t, ht⟩ := ensureStep_m_extends rest h m a
        rw [ht]
        exact alookup_append_isSome _ _ _ hm
      · rw [if_neg hm]
        obtain ⟨t, ht⟩ := ensureStep_m_extends rest (h ++ [freshLabel h (key_to_header k)])
          (m ++ [(k, freshLabel h (key_to_header k))]) true
        rw [ht]
        apply alookup_append_isSome
        rw [alookup_append_none m _ k (Option.not_isSome_iff_eq_none.mp hm)]
        simp [alookup]
    · simp only [ensureStep]
      by_cases hkey : key = blank
      · rw [if_pos hkey]; exact ih h m a k hmem hkb
      · rw [if_neg hkey]
        by_cases hm : (alookup m key).isSome
        · rw [if_pos hm]; exact ih h m a k hmem hkb
        · rw [if_neg hm]; exact ih _ _ true k hmem hkb

/-- If every key is empty or already registered, the loop is a no-op and
the `added` flag is untouched. -/
theorem ensureStep_noop :
    ∀ (keys header0 : List String) (m : List (String × String)) (added : Bool),
    (∀ k ∈ keys, k = blank ∨ (alookup m k).isSome) →
    ensureStep keys header0 m added = (header0, m, added) := by
  intro keys
  induction keys with
  | nil => intro h m a _; rfl
  | cons key rest ih =>
    intro h m a hall
    simp only [ensureStep]
    have htail := fun k hk => hall k (List.mem_cons_of_mem _ hk)
    rcases hall key (List.mem_cons_self _ _) with hb | hs
    · rw [if_pos hb]
      exact ih h m a htail
    · by_cases hb : key = blank
      · rw [if_pos hb]
        exact ih h m a htail
      · rw [if_neg hb, if_pos hs]
        exact ih h m a htail

/-- C6: `_ensure_dynamic_keys` is idempotent.  A second call with the same
keys returns the state of the first call unchanged — same header, same
key-to-label mapping, same backend contents and, since the sheet's write
counter is part of the state, no second header write is issued. -/
theorem c6_ensure_dynamic_keys_idempotent (s : RepoState) (keys : List String) :
    ensure_dynamic_keys (ensure_dynamic_keys s keys) keys = ensure_dynamic_keys s keys := by
  have hh : (ensure_dynamic_keys s keys).header =
      (ensureStep keys s.header s.key_to_header_map false).1 := ensure_header_val s keys
  have hm : (ensure_dynamic_keys s keys).key_to_header_map =
      (ensureStep keys s.header s.key_to_header_map false).2.1 := ensure_kth_val s keys
  have hreg : ∀ k ∈ keys, k = blank ∨
      (alookup (ensure_dynamic_keys s keys).key_to_header_map k).isSome := by
    intro k hk
    by_cases hb : k = blank
    · exact Or.inl hb
    · refine Or.inr ?_
      rw [hm]
      exact ensureStep_registers keys s.header s.key_to_header_map false k hk hb
  have hstep := ensureStep_noop keys (ensure_dynamic_keys s keys).header
    (ensure_dynamic_keys s keys).key_to_header_map false hreg
  show ensure_dynamic_keys (ensure_dynamic_keys s keys) keys = _
  rw [ensure_dynamic_keys, hstep]
  rfl

/-- C6 witness: a concrete second call is the identity on the concrete
first-call state. -/
theorem c6_ensure_dynamic_keys_idempotent_witness :
    ensure_dynamic_keys (ensure_dynamic_keys (repoInit ⟨[], 0⟩) (["location", "pay"]))
        (["location", "pay"])
      = ensure_dynamic_keys (repoInit ⟨[], 0⟩) (["location", "pay"]) :=
  c6_ensure_dynamic_keys_idempotent (repoInit ⟨[], 0⟩) (["location", "pay"])

/-! ### The aggregator (`src/job_search.py`)

`search_jobs_for_role` iterates locations (outer) and the enabled
providers in configuration order (inner), checks the required settings
per provider, invokes the provider's `search` (modelled by the `run`
parameter, a call record in, results or an exception out), and folds the
returned items through the deduplication/default-filling loop.  The
function returns the list of provider calls actually issued together with
the aggregated result or the raised configuration error. -/

/-- One provider's entry in `config.PROVIDER_SETTINGS`; absent dictionary
keys are `none`. -/
structure ProviderSettings where
  enabled : Option Bool := none
  module : Option String := none
  result_limit : Option Int := none
  label : Option String := none
deriving DecidableEq, Repr

/-- One provider result dictionary; absent keys are `none`. -/
structure Item where
  link : Option String := none
  source : Option String := none
  provider : Option String := none
  metadata : Option (List (String × String)) := none
deriving DecidableEq, Repr

/-- Arguments of one `provider_module.search (role, location, limit,
filters)` invocation. -/
structure SearchCall where
  module : String
  role : String
  location : String
  limit : Int
  filters : List (String × String)
deriving DecidableEq, Repr

/-- An item tagged with the location and provider of the iteration that
produced it. -/
structure Tagged where
  location : String
  providerName : String
  settings : ProviderSettings
  item : Item
deriving DecidableEq, Repr

/-- `settings.get ("enabled", True)`. -/
def providerEnabled (st : ProviderSettings) : Bool := st.enabled.getD true

/-- The `ValueError` message for a missing required provider setting. -/
def missingMsg (name key : String) : String :=
  "Provider \x27" ++ name ++ "\x27 missing required setting \x27" ++ key ++ "\x27"

/-- The `setdefault` calls applied to a surviving item: default the source
to the provider label (falling back to the provider name), default the
provider, materialize the metadata dictionary and default its
`location` to the search location without overwriting an existing one. -/
def applyDefaults (location providerName : String) (st : ProviderSettings)
    (it : Item) : Item :=
  let md := it.metadata.getD []
  let md' := if (alookup md ("location")).isSome then md else md ++ [("location", location)]
  { it with
    source := match it.source with
      | some v => some v
      | none => some (st.label.getD providerName),
    provider := match it.provider with
      | some v => some v
      | none => some providerName,
    metadata := some md' }

/-- The `for item in provider_results` body: drop items with a falsy or
already-seen link, otherwise record the link and append the item with its
defaults filled. -/
def dedupStep (sa : List String × List Item) (x : Tagged) : List String × List Item :=
  match x.item.link with
  | none => sa
  | some l =>
    if l = blank ∨ l ∈ sa.1 then sa
    else (sa.1 ++ [l], sa.2 ++ [applyDefaults x.location x.providerName x.settings x.item])

/-- The inner loop over the providers for one location, threading the call
log, the seen-link set and the aggregated list; a missing required setting
aborts with the `ValueError`, a failing provider is skipped. -/
def runProviders (run : SearchCall → Except String (List Item)) (role location : String)
    (filters : List (String × String)) :
    List (String × ProviderSettings) → List SearchCall → List String → List Item →
    List SearchCall × Except String (List String × List Item)
  | [], calls, seen, acc => (calls, Except.ok (seen, acc))
  | (name, st) :: rest, calls, seen, acc =>
    if providerEnabled st = false then
      runProviders run role location filters rest calls seen acc
    else
      match st.module with
      | none => (calls, Except.error (missingMsg name ("module")))
      | some m =>
        match st.result_limit with
        | none => (calls, Except.error (missingMsg name ("result_limit")))
        | some lim =>
          let c : SearchCall := ⟨m, role, location, lim, filters⟩
          match run c with
          | Except.error _ =>
            runProviders run role location filters rest (calls ++ [c]) seen acc
          | Except.ok items =>
            let sa := items.foldl (fun sa it => dedupStep sa ⟨location, name, st, it⟩)
              (seen, acc)
            runProviders run role location filters rest (calls ++ [c]) sa.1 sa.2

/-- The outer loop over the locations. -/
def searchLocations (providers : List (String × ProviderSettings))
    (run : SearchCall → Except String (List Item)) (role : String)
    (filters : List (String × String)) :
    List String → List SearchCall → List String → List Item →
    List SearchCall × Except String (List Item)
  | [], calls, _, acc => (calls, Except.ok acc)
  | loc :: rest, calls, seen, acc =>
    match runProviders run role loc filters providers calls seen acc with
    | (calls', Except.error e) => (calls', Except.error e)
    | (calls', Except.ok (seen', acc')) =>
      searchLocations providers run role filters rest calls' seen' acc'

/-- `search_jobs_for_role`, with the provider table and the module-loading
plus `search` side effect (`run`) injected. -/
def search_jobs_for_role (providers : List (String × ProviderSettings))
    (run : SearchCall → Except String (List Item)) (role : String)
    (locations : List String) (filters : List (String × String)) :
    List SearchCall × Except String (List Item) :=
  searchLocations providers run role filters locations [] [] []

/-- The items one enabled, fully configured provider contributes at one
location (a raised provider error contributes nothing). -/
def providerItems (run : SearchCall → Except String (List Item)) (role location : String)
    (filters : List (String × String)) (st : ProviderSettings) : List Item :=
  match st.module, st.result_limit with
  | some m, some lim =>
    match run ⟨m, role, location, lim, filters⟩ with
    | Except.ok items => items
    | Except.error _ => []
  | _, _ => []

/-- The tagged item stream of one location, in iteration order. -/
def locStream (providers : List (String × ProviderSettings))
    (run : SearchCall → Except String (List Item)) (role : String)
    (filters : List (String × String)) (location : String) : List Tagged :=
  (providers.filter fun p => providerEnabled p.2).flatMap fun p =>
    (providerItems run role location filters p.2).map fun it =>
      ⟨location, p.1, p.2, it⟩

/-- The full tagged item stream: outer loop over locations, inner over the
enabled providers in configuration order, items in provider order. -/
def searchStream (providers : List (String × ProviderSettings))
    (run : SearchCall → Except String (List Item)) (role : String)
    (locations : List String) (filters : List (String × String)) : List Tagged :=
  locations.flatMap (locStream providers run role filters)

/-- Every enabled provider declares a module and a result limit. -/
def ProvidersConfigured (providers : List (String × ProviderSettings)) : Prop :=
  ∀ p ∈ providers, providerEnabled p.2 = true →
    p.2.module.isSome ∧ p.2.result_limit.isSome

instance (providers : List (String × ProviderSettings)) :
    Decidable (ProvidersConfigured providers) := by
  unfold ProvidersConfigured
  infer_instance

/-- The calls the inner loop issues for one location when every enabled
provider is fully configured. -/
def providerCalls (role location : String) (filters : List (String × String))
    (providers : List (String × ProviderSettings)) : List SearchCall :=
  providers.filterMap fun p =>
    if providerEnabled p.2 then
      match p.2.module, p.2.result_limit with
      | some m, some lim => some ⟨m, role, location, lim, filters⟩
      | _, _ => none
    else none

theorem foldl_flatMap {α β γ : Type} (g : γ → List α) (f : β → α → β) :
    ∀ (l : List γ) (init : β),
      (l.flatMap g).foldl f init = l.foldl (fun s x => (g x).foldl f s) init := by
  intro l
  induction l with
  | nil => intro init; rfl
  | cons x t ih =>
    intro init
    simp only [List.flatMap_cons, List.foldl_append, List.foldl_cons]
    exact ih _

/-- On a fully configured provider list the inner loop succeeds and folds
the location's tagged stream. -/
theorem runProviders_ok (run : SearchCall → Except String (List Item))
    (role location : String) (filters : List (String × String)) :
    ∀ (ps : List (String × ProviderSettings)) (calls : List SearchCall)
      (seen : List String) (acc : List Item),
      ProvidersConfigured ps →
      (runProviders run role location filters ps calls seen acc).2 =
        Except.ok ((locStream ps run role filters location).foldl dedupStep (seen, acc)) := by
  intro ps
  induction ps with
  | nil => intro calls seen acc _; rfl
  | cons p rest ih =>
    intro calls seen acc hconf
    obtain ⟨name, st⟩ := p
    have hrest : ProvidersConfigured rest :=
      fun q hq => hconf q (List.mem_cons_of_mem _ hq)
    by_cases hen : providerEnabled st = false
    · simp only [runProviders, if_pos hen, locStream, List.filter_cons,
        hen, Bool.false_eq_true, if_neg, reduceIte]
      exact ih calls seen acc hrest
    · have hen' : providerEnabled st = true := by
        revert hen
        cases providerEnabled st <;> simp
      obtain ⟨hm, hl⟩ := hconf (name, st) (List.mem_cons_self _ _) hen'
      obtain ⟨m, hmm'⟩ := Option.isSome_iff_exists.mp hm
      obtain ⟨lim, hll'⟩ := Option.isSome_iff_exists.mp hl
      have hmm : st.module = some m := hmm'
      have hll : st.result_limit = some lim := hll'
      have hstream : locStream ((name, st) :: rest) run role filters location =
          (providerItems run role location filters st).map
            (fun it => (⟨location, name, st, it⟩ : Tagged)) ++
          locStream rest run role filters location := by
        simp [locStream, List.filter_cons, hen']
      rw [hstream]
      simp only [runProviders, if_neg hen, hmm, hll]
      rcases hrun : run ⟨m, role, location, lim, filters⟩ with e | items
      · show (runProviders run role location filters rest
            (calls ++ [⟨m, role, location, lim, filters⟩]) seen acc).2 = _
        rw [ih _ seen acc hrest]
        have hpi : providerItems run role location filters st = [] := by
          simp [providerItems, hmm, hll, hrun]
        rw [hpi]
        rfl
      · show (runProviders run role location filters rest
            (calls ++ [⟨m, role, location, lim, filters⟩])
            (items.foldl (fun sa it => dedupStep sa ⟨location, name, st, it⟩) (seen, acc)).1
            (items.foldl (fun sa it => dedupStep sa ⟨location, name, st, it⟩) (seen, acc)).2).2
          = _
        rw [ih _ _ _ hrest]
        have hpi : providerItems run role location filters st = items := by
          simp [providerItems, hmm, hll, hrun]
        rw [hpi, List.foldl_append, List.foldl_map]

/-- On a fully configured provider list the whole search succeeds and
folds the full tagged stream. -/
theorem searchLocations_ok (providers : List (String × ProviderSettings))
    (run : SearchCall → Except String (List Item)) (role : String)
    (filters : List (String × String))
    (hconf : ProvidersConfigured providers) :
    ∀ (locations : List String) (calls : List SearchCall)
      (seen : List String) (acc : List Item),
      (searchLocations providers run role filters locations calls seen acc).2 =
        Except.ok (((searchStream providers run role locations filters).foldl
          dedupStep (seen, acc)).2) := by
  intro locations
  induction locations with
  | nil => intro calls seen acc; rfl
  | cons loc rest ih =>
    intro calls seen acc
    have h1 := runProviders_ok run role loc filters providers calls seen acc hconf
    simp only [searchLocations]
    rcases hrp : runProviders run role loc filters providers calls seen acc with ⟨calls', r⟩
    rw [hrp] at h1
    simp only at h1
    subst h1
    simp only [searchStream, List.flatMap_cons, List.foldl_append]
    exact ih calls' _ _

theorem applyDefaults_link (loc nm : String) (st : ProviderSettings) (it : Item) :
    (applyDefaults loc nm st it).link = it.link := rfl

theorem applyDefaults_filled (loc nm : String) (st : ProviderSettings) (it : Item) :
    (applyDefaults loc nm st it).source.isSome ∧
    (applyDefaults loc nm st it).provider.isSome ∧
    ∃ m, (applyDefaults loc nm st it).metadata = some m ∧
      (alookup m ("location")).isSome := by
  refine ⟨?_, ?_, ?_⟩
  · rcases hs : it.source with _ | v <;> simp [applyDefaults, hs]
  · rcases hs : it.provider with _ | v <;> simp [applyDefaults, hs]
  · refine ⟨if (alookup (it.metadata.getD []) ("location")).isSome
        then it.metadata.getD [] else it.metadata.getD [] ++ [("location", loc)],
      rfl, ?_⟩
    by_cases h : (alookup (it.metadata.getD []) ("location")).isSome
    · rw [if_pos h]
      exact h
    · rw [if_neg h]
      rw [alookup_append_none _ _ _ (Option.not_isSome_iff_eq_none.mp h)]
      simp [alookup]

theorem applyDefaults_keeps_location (loc nm : String) (st : ProviderSettings)
    (it : Item) (m : List (String × String)) (v : String)
    (hm : it.metadata = some m) (hv : alookup m ("location") = some v) :
    ∃ m', (applyDefaults loc nm st it).metadata = some m' ∧
      alookup m' ("location") = some v := by
  refine ⟨if (alookup m ("location")).isSome then m else m ++ [("location", loc)],
    ?_, ?_⟩
  · simp [applyDefaults, hm]
  · rw [if_pos (by rw [hv]; rfl)]
    exact hv

/-- The invariant the deduplication fold maintains over the processed
prefix of the tagged stream: the seen set holds exactly the non-blank
links encountered so far, every aggregated item's link is a seen one, the
aggregated links are pairwise distinct, and every aggregated item is the
default-filled copy of the first stream element carrying its link. -/
def DedupInv (procd : List Tagged) (sa : List String × List Item) : Prop :=
  (∀ l : String, l ∈ sa.1 ↔ (l ≠ blank ∧ ∃ x ∈ procd, x.item.link = some l)) ∧
  (∀ o ∈ sa.2, ∃ l : String, o.link = some l ∧ l ∈ sa.1) ∧
  sa.2.Pairwise (fun a b => a.link ≠ b.link) ∧
  (∀ o ∈ sa.2, ∃ pre x post, procd = pre ++ x :: post ∧
    (∀ y ∈ pre, y.item.link ≠ x.item.link) ∧
    o = applyDefaults x.location x.providerName x.settings x.item)

theorem dedupStep_inv (procd : List Tagged) (sa : List String × List Item) (x : Tagged)
    (h : DedupInv procd sa) : DedupInv (procd ++ [x]) (dedupStep sa x) := by
  obtain ⟨hseen, hacc, hpw, hfirst⟩ := h
  have hfirst' : ∀ o ∈ sa.2, ∃ pre y post, procd ++ [x] = pre ++ y :: post ∧
      (∀ z ∈ pre, z.item.link ≠ y.item.link) ∧
      o = applyDefaults y.location y.providerName y.settings y.item := by
    intro o ho
    obtain ⟨pre, y, post, heq, hpre, happ⟩ := hfirst o ho
    exact ⟨pre, y, post ++ [x], by rw [heq]; simp, hpre, happ⟩
  rcases hl : x.item.link with _ | l
  · simp only [dedupStep, hl]
    refine ⟨?_, hacc, hpw, hfirst'⟩
    intro l'
    rw [hseen l']
    constructor
    · rintro ⟨hb, y, hy, hly⟩
      exact ⟨hb, y, List.mem_append_left _ hy, hly⟩
    · rintro ⟨hb, y, hy, hly⟩
      rcases List.mem_append.mp hy with h1 | h2
      · exact ⟨hb, y, h1, hly⟩
      · have hyx : y = x := by simpa using h2
        rw [hyx, hl] at hly
        exact absurd hly (by simp)
  · by_cases hcond : l = blank ∨ l ∈ sa.1
    · simp only [dedupStep, hl, if_pos hcond]
      refine ⟨?_, hacc, hpw, hfirst'⟩
      intro l'
      rw [hseen l']
      constructor
      · rintro ⟨hb, y, hy, hly⟩
        exact ⟨hb, y, List.mem_append_left _ hy, hly⟩
      · rintro ⟨hb, y, hy, hly⟩
        rcases List.mem_append.mp hy with h1 | h2
        · exact ⟨hb, y, h1, hly⟩
        · have hyx : y = x := by simpa using h2
          rw [hyx, hl] at hly
          have hll' : l = l' := by simpa using hly
          subst hll'
          rcases hcond with hb' | hs'
          · exact absurd hb' hb
          · exact (hseen l).mp hs'
    · push_neg at hcond
      obtain ⟨hlb, hlnotseen⟩ := hcond
      have hnot : ¬(l = blank ∨ l ∈ sa.1) := not_or.mpr ⟨hlb, hlnotseen⟩
      simp only [dedupStep, hl, if_neg hnot]
      refine ⟨?_, ?_, ?_, ?_⟩
      · intro l'
        constructor
        · intro hmem
          rcases List.mem_append.mp hmem with h1 | h2
          · obtain ⟨hb, y, hy, hly⟩ := (hseen l').mp h1
            exact ⟨hb, y, List.mem_append_left _ hy, hly⟩
          · have hl' : l' = l := by simpa using h2
            subst hl'
            exact ⟨hlb, x, List.mem_append_right _ (by simp), hl⟩
        · rintro ⟨hb, y, hy, hly⟩
          rcases List.mem_append.mp hy with h1 | h2
          · exact List.mem_append_left _ ((hseen l').mpr ⟨hb, y, h1, hly⟩)
          · have hyx : y = x := by simpa using h2
            rw [hyx, hl] at hly
            have : l = l' := by simpa using hly
            subst this
            exact List.mem_append_right _ (by simp)
      · intro o ho
        rcases List.mem_append.mp ho with h1 | h2
        · obtain ⟨l', hol, hl'⟩ := hacc o h1
          exact ⟨l', hol, List.mem_append_left _ hl'⟩
        · have hox : o = applyDefaults x.location x.providerName x.settings x.item := by
            simpa using h2
          refine ⟨l, ?_, List.mem_append_right _ (by simp)⟩
          rw [hox, applyDefaults_link]
          exact hl
      · rw [List.pairwise_append]
        refine ⟨hpw, by simp, ?_⟩
        intro a ha b hb
        have hbx : b = applyDefaults x.location x.providerName x.settings x.item := by
          simpa using hb
        obtain ⟨la, hal, hla⟩ := hacc a ha
        rw [hbx, applyDefaults_link, hal, hl]
        intro heq
        have : la = l := by simpa using heq
        subst this
        exact hlnotseen hla
      · intro o ho
        rcases List.mem_append.mp ho with h1 | h2
        · exact hfirst' o h1
        · have hox : o = applyDefaults x.location x.providerName x.settings x.item := by
            simpa using h2
          refine ⟨procd, x, [], rfl, ?_, hox⟩
          intro y hy heq
          rw [hl] at heq
          exact hlnotseen ((hseen l).mpr ⟨hlb, y, hy, heq⟩)

theorem foldl_dedup_inv :
    ∀ (rest procd : List Tagged) (sa : List String × List Item),
      DedupInv procd sa → DedupInv (procd ++ rest) (rest.foldl dedupStep sa) := by
  intro rest
  induction rest with
  | nil => intro procd sa h; simpa using h
  | cons x t ih =>
    intro procd sa h
    have h2 := ih (procd ++ [x]) (dedupStep sa x) (dedupStep_inv procd sa x h)
    simpa [List.append_assoc] using h2

/-- The conjunction of aggregator guarantees claimed by C7: success,
per-link uniqueness, defaults filled on every surviving item, first
occurrence in iteration order wins, and a provider-supplied metadata
location is never overwritten. -/
def AggregatorPost (providers : List (String × ProviderSettings))
    (run : SearchCall → Except String (List Item)) (role : String)
    (locations : List String) (filters : List (String × String)) : Prop :=
  ∃ out, (search_jobs_for_role providers run role locations filters).2 = Except.ok out ∧
    out.Pairwise (fun a b => a.link ≠ b.link) ∧
    (∀ o ∈ out, o.source.isSome ∧ o.provider.isSome ∧
      ∃ m, o.metadata = some m ∧ (alookup m ("location")).isSome) ∧
    (∀ o ∈ out, ∃ pre x post,
      searchStream providers run role locations filters = pre ++ x :: post ∧
      x.item.link = o.link ∧ (∃ l, o.link = some l ∧ l ≠ blank) ∧
      (∀ y ∈ pre, y.item.link ≠ x.item.link) ∧
      o = applyDefaults x.location x.providerName x.settings x.item) ∧
    (∀ (loc nm : String) (st : ProviderSettings) (it : Item)
        (m : List (String × String)) (v : String),
      it.metadata = some m → alookup m ("location") = some v →
      ∃ m', (applyDefaults loc nm st it).metadata = some m' ∧
        alookup m' ("location") = some v)

/-- C7: on a fully configured provider table the aggregator succeeds and
returns each link at most once; the surviving copy of a link is the
default-filled first occurrence in iteration order (locations outer,
enabled providers in configuration order); every surviving item has a
source, a provider and a metadata location, and a provider-supplied
metadata location is never overwritten. -/
theorem c7_aggregator_dedup_first_wins_defaults
    (providers : List (String × ProviderSettings))
    (run : SearchCall → Except String (List Item)) (role : String)
    (locations : List String) (filters : List (String × String))
    (hconf : ProvidersConfigured providers) :
    AggregatorPost providers run role locations filters := by
  have hmain := searchLocations_ok providers run role filters hconf locations [] [] []
  have hbase : DedupInv [] (([] : List String), ([] : List Item)) := by
    refine ⟨by simp, by simp, by simp, by simp⟩
  have hinv := foldl_dedup_inv (searchStream providers run role locations filters)
    [] ([], []) hbase
  rw [List.nil_append] at hinv
  obtain ⟨hseen, hacc, hpw, hfirst⟩ := hinv
  refine ⟨_, hmain, hpw, ?_, ?_, ?_⟩
  · intro o ho
    obtain ⟨pre, x, post, _, _, hox⟩ := hfirst o ho
    rw [hox]
    exact applyDefaults_filled _ _ _ _
  · intro o ho
    obtain ⟨pre, x, post, hstr, hpre, hox⟩ := hfirst o ho
    obtain ⟨l, hol, hlmem⟩ := hacc o ho
    obtain ⟨hlb, _⟩ := (hseen l).mp hlmem
    refine ⟨pre, x, post, hstr, ?_, ⟨l, hol, hlb⟩, hpre, hox⟩
    rw [hox, applyDefaults_link]
  · intro loc nm st it m v hm hv
    exact applyDefaults_keeps_location loc nm st it m v hm hv

/-- Concrete provider table for the C7 witness. -/
def c7Providers : List (String × ProviderSettings) :=
  [("serp", { enabled := none, module := some ("mod"), result_limit := some 5,
              label := none })]

/-- Concrete provider behaviour for the C7 witness: two results sharing a
link, the second with its own source and location metadata. -/
def c7Run : SearchCall → Except String (List Item) :=
  fun _ => Except.ok
    [{ link := some ("https://x"), source := none, provider := none, metadata := none },
     { link := some ("https://x"), source := some ("S"), provider := none,
       metadata := some [("location", "Paris")] }]

/-- C7 witness: the guarantees instantiated on a concrete table whose
provider returns a duplicated link. -/
theorem c7_aggregator_dedup_first_wins_defaults_witness :
    AggregatorPost c7Providers c7Run ("engineer") (["CA"]) [] :=
  c7_aggregator_dedup_first_wins_defaults c7Providers c7Run ("engineer") (["CA"]) []
    (by decide)

theorem providerCalls_mem (role loc : String) (filters : List (String × String))
    (ps : List (String × ProviderSettings)) (c : SearchCall)
    (hc : c ∈ providerCalls role loc filters ps) :
    c.location = loc ∧ ∃ p ∈ ps, providerEnabled p.2 = true ∧
      p.2.module = some c.module ∧ p.2.result_limit = some c.limit := by
  obtain ⟨p, hp, hf⟩ := List.mem_filterMap.mp hc
  by_cases he : providerEnabled p.2
  · rw [if_pos he] at hf
    rcases hm : p.2.module with _ | m
    · rw [hm] at hf
      simp at hf
    · rcases hl : p.2.result_limit with _ | lim
      · rw [hm, hl] at hf
        simp at hf
      · rw [hm, hl] at hf
        have hce : (⟨m, role, loc, lim, filters⟩ : SearchCall) = c := by simpa using hf
        subst hce
        exact ⟨rfl, p, hp, he, by rw [hm], by rw [hl]⟩
  · rw [if_neg he] at hf
    simp at hf

/-- Reaching the first enabled provider with a missing required setting
raises the `ValueError`; the providers before it (and only they) have been
searched, each exactly once, at the current location. -/
theorem runProviders_faulty (run : SearchCall → Except String (List Item))
    (role loc : String) (filters : List (String × String)) :
    ∀ (pre : List (String × ProviderSettings)) (nm : String) (st : ProviderSettings)
      (post : List (String × ProviderSettings)) (calls : List SearchCall)
      (seen : List String) (acc : List Item),
      ProvidersConfigured pre → providerEnabled st = true →
      (st.module = none ∨ st.result_limit = none) →
      runProviders run role loc filters (pre ++ (nm, st) :: post) calls seen acc =
        (calls ++ providerCalls role loc filters pre,
         Except.error (missingMsg nm
           (if st.module.isNone then ("module") else ("result_limit")))) := by
  intro pre
  induction pre with
  | nil =>
    intro nm st post calls seen acc _ hen hfault
    rcases hm : st.module with _ | m
    · simp [runProviders, hen, hm, providerCalls]
    · have hl : st.result_limit = none := by
        rcases hfault with h | h
        · rw [hm] at h
          cases h
        · exact h
      simp [runProviders, hen, hm, hl, providerCalls]
  | cons p rest ih =>
    intro nm st post calls seen acc hpre hen hfault
    obtain ⟨name0, st0⟩ := p
    have hrest : ProvidersConfigured rest :=
      fun q hq => hpre q (List.mem_cons_of_mem _ hq)
    by_cases he0 : providerEnabled st0 = false
    · simp only [List.cons_append, runProviders, if_pos he0, List.append_eq]
      rw [ih nm st post calls seen acc hrest hen hfault]
      have hpc : providerCalls role loc filters ((name0, st0) :: rest) =
          providerCalls role loc filters rest := by
        simp [providerCalls, List.filterMap_cons, he0]
      rw [hpc]
    · have he0' : providerEnabled st0 = true := by
        revert he0
        cases providerEnabled st0 <;> simp
      obtain ⟨hm0, hl0⟩ := hpre (name0, st0) (List.mem_cons_self _ _) he0'
      obtain ⟨m0, hm0'⟩ := Option.isSome_iff_exists.mp hm0
      obtain ⟨lim0, hl0'⟩ := Option.isSome_iff_exists.mp hl0
      have hmm : st0.module = some m0 := hm0'
      have hll : st0.result_limit = some lim0 := hl0'
      have hcalls : providerCalls role loc filters ((name0, st0) :: rest) =
          (⟨m0, role, loc, lim0, filters⟩ : SearchCall) ::
            providerCalls role loc filters rest := by
        simp [providerCalls, List.filterMap_cons, he0', hmm, hll]
      simp only [List.cons_append, runProviders, if_neg he0, hmm, hll, List.append_eq]
      rcases hrun : run ⟨m0, role, loc, lim0, filters⟩ with e | items
      · show runProviders run role loc filters (rest ++ (nm, st) :: post)
            (calls ++ [⟨m0, role, loc, lim0, filters⟩]) seen acc = _
        rw [ih nm st post _ seen acc hrest hen hfault, hcalls]
        simp [List.append_assoc]
      · show runProviders run role loc filters (rest ++ (nm, st) :: post)
            (calls ++ [⟨m0, role, loc, lim0, filters⟩])
            (items.foldl (fun sa it => dedupStep sa ⟨loc, name0, st0, it⟩) (seen, acc)).1
            (items.foldl (fun sa it => dedupStep sa ⟨loc, name0, st0, it⟩) (seen, acc)).2
            = _
        rw [ih nm st post _ _ _ hrest hen hfault, hcalls]
        simp [List.append_assoc]

/-- C8, amended.  With a non-empty location list and a first enabled
provider missing a required setting, the search raises the configuration
`ValueError` for that provider during the first location's pass: the
searches already invoked are exactly those of the enabled, fully
configured providers preceding it in configuration order, all at the
first location; the misconfigured provider itself is never searched and
no later location is reached. -/
theorem c8_config_error_first_location
    (providers : List (String × ProviderSettings))
    (run : SearchCall → Except String (List Item)) (role : String)
    (loc0 : String) (restLocs : List String) (filters : List (String × String))
    (pre post : List (String × ProviderSettings)) (nm : String) (st : ProviderSettings)
    (hps : providers = pre ++ (nm, st) :: post)
    (hpre : ProvidersConfigured pre)
    (hen : providerEnabled st = true)
    (hfault : st.module = none ∨ st.result_limit = none) :
    search_jobs_for_role providers run role (loc0 :: restLocs) filters =
      (providerCalls role loc0 filters pre,
       Except.error (missingMsg nm
         (if st.module.isNone then ("module") else ("result_limit")))) ∧
    ∀ c ∈ providerCalls role loc0 filters pre, c.location = loc0 ∧
      ∃ p ∈ pre, providerEnabled p.2 = true ∧ p.2.module = some c.module ∧
        p.2.result_limit = some c.limit := by
  constructor
  · subst hps
    simp only [search_jobs_for_role, searchLocations]
    rw [runProviders_faulty run role loc0 filters pre nm st post [] [] []
      hpre hen hfault]
    simp
  · intro c hc
    exact providerCalls_mem role loc0 filters pre c hc

/-- Provider table for the C8 refutation: a fully configured provider in
front of one that lacks its result limit. -/
def c8Providers : List (String × ProviderSettings) :=
  [("good", { enabled := none, module := some ("m"), result_limit := some 5,
              label := none }),
   ("bad", { enabled := none, module := some ("m2"), result_limit := none,
             label := none })]

/-- Provider behaviour for the C8 refutation. -/
def c8Run : SearchCall → Except String (List Item) := fun _ => Except.ok []

/-- C8, counterexample.  The claim says the configuration error is raised
before any provider's search is invoked.  With a well-configured provider
listed before the misconfigured one, the call log at the moment the error
is raised already contains the first provider's search. -/
theorem c8_error_after_earlier_search :
    (search_jobs_for_role c8Providers c8Run ("engineer") (["X"]) []).2 =
      Except.error (missingMsg ("bad") ("result_limit")) ∧
    (search_jobs_for_role c8Providers c8Run ("engineer") (["X"]) []).1 =
      [{ module := "m", role := "engineer", location := "X", limit := 5,
         filters := [] }] ∧
    (search_jobs_for_role c8Providers c8Run ("engineer") (["X"]) []).1 ≠ [] := by
  exact ⟨rfl, by decide, by decide⟩

/-- The configured prefix of `c8Providers`. -/
def c8Pre : List (String × ProviderSettings) :=
  [("good", { enabled := none, module := some ("m"), result_limit := some 5,
              label := none })]

/-- The misconfigured entry of `c8Providers`. -/
def c8Bad : ProviderSettings :=
  { enabled := none, module := some ("m2"), result_limit := none, label := none }

/-- C8 witness: the amended statement applied to the concrete table. -/
theorem c8_config_error_first_location_witness :
    (search_jobs_for_role c8Providers c8Run ("engineer") (["X"]) [] =
      (providerCalls ("engineer") ("X") [] c8Pre,
       Except.error (missingMsg ("bad")
         (if c8Bad.module.isNone then ("module") else ("result_limit"))))) ∧
    ∀ c ∈ providerCalls ("engineer") ("X") [] c8Pre, c.location = ("X") ∧
      ∃ p ∈ c8Pre, providerEnabled p.2 = true ∧ p.2.module = some c.module ∧
        p.2.result_limit = some c.limit :=
  c8_config_error_first_location c8Providers c8Run ("engineer") ("X") [] []
    c8Pre [] ("bad") c8Bad (by decide) (by decide) (by decide) (Or.inr rfl)

/-! ### AI enrichment (`src/ai/enrichment.py`)

The adapter is modelled down to Python's data and exception semantics:
JSON values (`JVal`), truthiness, `dict.get`, indexing, and the exception
taxonomy (`PyErr`) with the retry loop's `except (RequestException,
ValueError, KeyError)` clause.  The network round-trip
(`requests.post` + `raise_for_status` + `response.json()`) and the
standard library's `json.loads` are external collaborators and enter as
parameters: a request-level or body-decoding failure is an `.error`
carrying the exception's text. -/

/-- A Python value deserialized from JSON. -/
inductive JVal where
  | null : JVal
  | bool (b : Bool) : JVal
  | num (q : ℚ) : JVal
  | str (s : String) : JVal
  | arr (elems : List JVal) : JVal
  | obj (fields : List (String × JVal)) : JVal
deriving Repr

/-- The Python exceptions the adapter can raise or propagate.
`keyError` carries the already-rendered `str (exc)` text. -/
inductive PyErr where
  | requestError (msg : String)
  | valueError (msg : String)
  | keyError (msg : String)
  | attributeError (msg : String)
  | typeError (msg : String)
  | indexError (msg : String)
  | enrichmentError (msg : String)
deriving DecidableEq, Repr

/-- Membership in the retry loop's `except (requests.RequestException,
ValueError, KeyError)` clause. -/
def caughtErr : PyErr → Bool
  | .requestError _ => true
  | .valueError _ => true
  | .keyError _ => true
  | _ => false

/-- `str (exc)` (the payload is stored pre-rendered). -/
def errMsg : PyErr → String
  | .requestError m => m
  | .valueError m => m
  | .keyError m => m
  | .attributeError m => m
  | .typeError m => m
  | .indexError m => m
  | .enrichmentError m => m

/-- The Python type name used in error messages. -/
def pyTypeName : JVal → String
  | .null => "NoneType"
  | .bool _ => "bool"
  | .num q => if q.den = 1 then "int" else "float"
  | .str _ => "str"
  | .arr _ => "list"
  | .obj _ => "dict"

/-- Python truthiness of a JSON value. -/
def pyTruthy : JVal → Bool
  | .null => false
  | .bool b => b
  | .num q => if q = 0 then false else true
  | .str s => if s = blank then false else true
  | .arr [] => false
  | .arr (_ :: _) => true
  | .obj [] => false
  | .obj (_ :: _) => true

/-- Truthiness of a `dict.get` result (`None` is falsy). -/
def truthyOpt : Option JVal → Bool
  | none => false
  | some v => pyTruthy v

/-- Python `a or b` over possibly-`None` values. -/
def pyOr (a b : Option JVal) : Option JVal := if truthyOpt a then a else b

/-- The `AttributeError` raised by `.get` on a non-dict. -/
def noAttrGet (v : JVal) : PyErr :=
  .attributeError ("\x27" ++ pyTypeName v ++ "\x27 object has no attribute \x27get\x27")

/-- Python `v.get (key)`. -/
def pyDictGet (v : JVal) (key : String) : Except PyErr (Option JVal) :=
  match v with
  | .obj fields => Except.ok (alookup fields key)
  | _ => Except.error (noAttrGet v)

/-- Python `v.get (key, default)`. -/
def pyDictGetD (v : JVal) (key : String) (dflt : JVal) : Except PyErr JVal :=
  match v with
  | .obj fields => Except.ok ((alookup fields key).getD dflt)
  | _ => Except.error (noAttrGet v)

/-- Python `v[0]` on a deserialized JSON value: first list element, a
`KeyError` on a (string-keyed) JSON object, the first character of a
string, a `TypeError` otherwise. -/
def pyIndex0 : JVal → Except PyErr JVal
  | .arr (x :: _) => Except.ok x
  | .arr [] => Except.error (.indexError ("list index out of range"))
  | .obj _ => Except.error (.keyError ("0"))
  | .str s =>
    match s.data with
    | c :: _ => Except.ok (.str (String.mk [c]))
    | [] => Except.error (.indexError ("string index out of range"))
  | v => Except.error (.typeError ("\x27" ++ pyTypeName v ++ "\x27 object is not subscriptable"))

/-- Is `pat` a prefix of `text`? -/
def isPrefixChars : List Char → List Char → Bool
  | [], _ => true
  | _ :: _, [] => false
  | p :: ps, c :: cs => if p = c then isPrefixChars ps cs else false

/-- `text.split (pat)` worker; each step consumes at least one character,
so the fuel (initialized to the text length plus one) is never
exhausted. -/
def splitSubAux (pat : List Char) : Nat → List Char → List Char → List String
  | 0, rest, cur => [String.mk (cur.reverse ++ rest)]
  | fuel + 1, text, cur =>
    match text with
    | [] => [String.mk cur.reverse]
    | c :: rest =>
      if isPrefixChars pat text then
        String.mk cur.reverse :: splitSubAux pat fuel (text.drop pat.length) []
      else splitSubAux pat fuel rest (c :: cur)

/-- Python `s.split (pat)` for a non-empty pattern. -/
def splitOnSub (pat : String) (s : String) : List String :=
  splitSubAux pat.data (s.data.length + 1) s.data []

/-- Python `pat in s` (substring test). -/
def containsSub (pat s : String) : Bool :=
  match splitOnSub pat s with
  | [_] => false
  | _ => true

def braceOpen : Char := Char.ofNat 123

def braceClose : Char := Char.ofNat 125

/-- The `for segment in segments` scan of `_parse_response_content`:
first non-blank fenced segment that (after dropping a leading `json` tag)
is brace-delimited replaces the text; otherwise the text stays. -/
def scanFences (text : String) : List String → String
  | [] => text
  | seg :: rest =>
    let seg1 := stripStr seg
    if seg1 = blank then scanFences text rest
    else
      let seg2 := if isPrefixChars (("json").data) seg1.data
        then stripStr (String.mk (seg1.data.drop 4)) else seg1
      if isPrefixChars [braceOpen] seg2.data ∧ isPrefixChars [braceClose] seg2.data.reverse
      then seg2
      else scanFences text rest

/-- `_parse_response_content`, with `json.loads` injected; its decode
failure message is wrapped exactly like the `JSONDecodeError`. -/
def parseResponseContent (jsonLoads : String → Except String JVal) (content : String) :
    Except PyErr JVal :=
  let text := stripStr content
  if text = blank then Except.error (.valueError ("Empty response from AI provider"))
  else
    let text1 := if containsSub ("```") text
      then scanFences text (splitOnSub ("```") text) else text
    match jsonLoads text1 with
    | Except.ok v => Except.ok v
    | Except.error m =>
      Except.error (.valueError (("AI response is not valid JSON: ") ++ m))

/-- The key sanitization of `_normalize_result` for `additional_context`
entries: trim, lower-case, spaces to underscores. -/
def sanitizeExtraKey (k : String) : String :=
  replChar (' ') ('_') (lowerStr (stripStr k))

/-- `_normalize_result`: alternative spellings folded onto the three
canonical fields (falsy values normalize to the empty string), plus the
flattened, prefixed `additional_context` entries.  `data.get` on a
non-mapping payload raises `AttributeError`. -/
def normalize_result (data : JVal) : Except PyErr (List (String × JVal)) :=
  match data with
  | .obj fields =>
    let fit := pyOr (pyOr (alookup fields ("fit_score")) (alookup fields ("score")))
      (alookup fields ("fitScore"))
    let summary := pyOr (alookup fields ("summary")) (alookup fields ("highlights"))
    let outreach := pyOr (alookup fields ("outreach_angle")) (alookup fields ("outreach"))
    let base : List (String × JVal) :=
      [("ai_fit_score", if truthyOpt fit then fit.getD JVal.null else JVal.str blank),
       ("ai_summary", if truthyOpt summary then summary.getD JVal.null else JVal.str blank),
       ("ai_outreach_angle",
        if truthyOpt outreach then outreach.getD JVal.null else JVal.str blank)]
    match alookup fields ("additional_context") with
    | some (JVal.obj extra) =>
      Except.ok (extra.foldl
        (fun acc kv =>
          let nk := sanitizeExtraKey kv.1
          if nk = blank then acc else aset acc (("ai_extra_") ++ nk) kv.2)
        base)
    | _ => Except.ok base
  | _ => Except.error (noAttrGet data)

/-- One iteration of the retry loop's `try` body, given the network
round-trip's outcome for this attempt (`respond i`): status/decode
checks, content extraction, parsing and normalization, each failure
raising the exception the Python code raises. -/
def attemptOutcome (jsonLoads : String → Except String JVal)
    (respond : Nat → Except String JVal) (i : Nat) :
    Except PyErr (List (String × JVal)) :=
  match respond i with
  | Except.error m => Except.error (.requestError m)
  | Except.ok data =>
    match pyDictGet data ("choices") with
    | Except.error e => Except.error e
    | Except.ok choices =>
      if truthyOpt choices = false then
        Except.error (.valueError ("AI response missing choices array"))
      else
        match pyIndex0 (choices.getD JVal.null) with
        | Except.error e => Except.error e
        | Except.ok c0 =>
          match pyDictGetD c0 ("message") (JVal.obj []) with
          | Except.error e => Except.error e
          | Except.ok message =>
            match pyDictGet message ("content") with
            | Except.error e => Except.error e
            | Except.ok contentOpt =>
              match contentOpt with
              | some (JVal.str s) =>
                match parseResponseContent jsonLoads s with
                | Except.error e => Except.error e
                | Except.ok parsed => normalize_result parsed
              | _ => Except.error (.valueError ("AI response content is not text"))

/-- The `config.AI_*` values `enrich_job` consults; optional entries are
`none` when the environment variable is unset. -/
structure AIConfig where
  enrichmentEnabled : Bool
  provider : Option String
  model : String
  apiKey : Option String
  org : Option String
  baseUrl : Option String
  completionsUrl : Option String
  temperature : ℚ
  timeout : ℚ
  maxRetries : Int
  retryBackoffSeconds : ℚ
  responseFormatJson : Bool
  promptTemplates : List (String × String)

/-- `_PromptPayload`. -/
structure PromptPayload where
  system_prompt : String
  user_prompt : String
deriving DecidableEq, Repr

/-- Truthiness of an optional string (`None` and the empty string are
falsy). -/
def truthyOptStr : Option String → Bool
  | none => false
  | some s => if s = blank then false else true

/-- Worker for `str.format`: simultaneous substitution of the
`\x7bname\x7d` placeholders.  The templates this code formats use only
plain placeholders of the fixed argument names, which is the fragment
modelled (an unknown name is kept verbatim rather than raising
`KeyError`, and `\x7b\x7b` escapes do not occur). -/
def formatAux (args : List (String × String)) : Nat → List Char → List Char
  | 0, text => text
  | fuel + 1, text =>
    match text with
    | [] => []
    | c :: rest =>
      if c = braceOpen then
        let p := rest.takeWhile (fun d => d ≠ braceClose)
        match rest.dropWhile (fun d => d ≠ braceClose) with
        | [] => c :: rest
        | _ :: tail =>
          match alookup args (String.mk p) with
          | some v => v.data ++ formatAux args fuel tail
          | none => (c :: p ++ [braceClose]) ++ formatAux args fuel tail
      else c :: formatAux args fuel rest

/-- Python `template.format (arguments)` for the modelled fragment. -/
def formatMap (template : String) (args : List (String × String)) : String :=
  String.mk (formatAux args (template.data.length + 1) template.data)

/-- Python `str (v)`, used only to splice posting fields into the prompt
text; the rendering of non-string values is abbreviated, and no theorem
depends on the prompt text. -/
def pyStr : JVal → String
  | .str s => s
  | .null => "None"
  | .bool b => if b then "True" else "False"
  | .num q => toString q
  | .arr _ => "<list>"
  | .obj _ => "<dict>"

/-- `str (posting.get (key) or metadata.get (key) or "").strip()`. -/
def postingField (posting metaFields : List (String × JVal)) (key : String) : String :=
  stripStr (pyStr ((pyOr (pyOr (alookup posting key) (alookup metaFields key))
    (some (JVal.str blank))).getD (JVal.str blank)))

/-- `_build_prompt`: substitute the posting fields into the configured
templates; fails when the user template is unset or blank. -/
def buildPrompt (cfg : AIConfig) (posting : List (String × JVal)) :
    Except PyErr PromptPayload :=
  let metaFields := match alookup posting ("metadata") with
    | some (JVal.obj m) => m
    | _ => []
  let title := postingField posting metaFields ("title")
  let company := postingField posting metaFields ("company")
  let location := postingField posting metaFields ("location")
  let description := stripStr (pyStr ((pyOr (pyOr (pyOr (alookup posting ("description"))
    (alookup metaFields ("description"))) (alookup metaFields ("snippet")))
    (some (JVal.str blank))).getD (JVal.str blank)))
  let link := postingField posting metaFields ("link")
  let system_prompt := stripStr ((alookup cfg.promptTemplates ("system")).getD blank)
  let user_template := stripStr ((alookup cfg.promptTemplates ("user")).getD blank)
  let candidate_profile :=
    stripStr ((alookup cfg.promptTemplates ("candidate_profile")).getD blank)
  if user_template = blank then
    Except.error (.enrichmentError ("AI user prompt template is not configured."))
  else
    Except.ok ⟨system_prompt,
      formatMap user_template
        [("candidate_profile", candidate_profile), ("job_title", title),
         ("company", company), ("location", location),
         ("description", description), ("link", link)]⟩

/-- `_request_headers`: fails without an API key; Azure uses an `api-key`
header, every other provider a bearer token; an organization header is
appended when configured. -/
def requestHeaders (cfg : AIConfig) : Except PyErr (List (String × String)) :=
  if truthyOptStr cfg.apiKey = false then
    Except.error (.enrichmentError ("AI_API_KEY is required for enrichment."))
  else
    let key := cfg.apiKey.getD blank
    let providerName := lowerStr (if truthyOptStr cfg.provider
      then cfg.provider.getD blank else ("openai"))
    let headers := [("Content-Type", "application/json")]
    let headers1 := if providerName = ("azure") then headers ++ [("api-key", key)]
      else headers ++ [("Authorization", ("Bearer ") ++ key)]
    if truthyOptStr cfg.org then
      Except.ok (headers1 ++ [("OpenAI-Organization", cfg.org.getD blank)])
    else Except.ok headers1

/-- `str.rstrip ("/")`. -/
def rstripSlash (s : String) : String :=
  String.mk ((s.data.reverse.dropWhile (fun c => c = '/')).reverse)

/-- `_completions_url`. -/
def completionsUrl (cfg : AIConfig) : String :=
  if truthyOptStr cfg.completionsUrl then cfg.completionsUrl.getD blank
  else
    let base := if truthyOptStr cfg.baseUrl then rstripSlash (cfg.baseUrl.getD blank)
      else ("https://api.openai.com/v1")
    base ++ ("/chat/completions")

/-- `_compose_payload`. -/
def composePayload (cfg : AIConfig) (prompt : PromptPayload) : JVal :=
  let messages :=
    (if prompt.system_prompt = blank then []
     else [JVal.obj [("role", JVal.str ("system")),
                     ("content", JVal.str prompt.system_prompt)]]) ++
    [JVal.obj [("role", JVal.str ("user")), ("content", JVal.str prompt.user_prompt)]]
  let payload := [("model", JVal.str cfg.model),
                  ("messages", JVal.arr messages),
                  ("temperature", JVal.num cfg.temperature)]
  JVal.obj (if cfg.responseFormatJson then
    payload ++ [("response_format", JVal.obj [("type", JVal.str ("json_object"))])]
    else payload)

/-- `max (1, config.AI_MAX_RETRIES)`. -/
def maxAttemptsOf (cfg : AIConfig) : Nat := (max 1 cfg.maxRetries).toNat

/-- The outcome of the `try` body at attempt `i`, with the request issued
against the configured URL, headers and payload (all pure). -/
def attemptOf (cfg : AIConfig) (jsonLoads : String → Except String JVal)
    (net : Nat → String → List (String × String) → JVal → Except String JVal)
    (prompt : PromptPayload) (headers : List (String × String)) (i : Nat) :
    Except PyErr (List (String × JVal)) :=
  attemptOutcome jsonLoads
    (fun j => net j (completionsUrl cfg) headers (composePayload cfg prompt)) i

/-- The `for attempt in range (1, max_attempts + 1)` loop: `k` is the
current attempt number, the second argument the remaining attempts,
`last` the last caught error's text.  The result carries the loop's
outcome, the number of attempts performed and the backoff sleeps issued
(between attempts, never after the last).  An uncaught exception
propagates immediately; exhaustion raises `EnrichmentError` with the last
error's text. -/
def attemptLoop (body : Nat → Except PyErr (List (String × JVal))) (backoff : ℚ) :
    Nat → Nat → Option String → Except PyErr (List (String × JVal)) × Nat × List ℚ
  | _, 0, last =>
    (Except.error (.enrichmentError (last.getD ("Unknown AI enrichment failure"))), 0, [])
  | k, r + 1, _ =>
    match body k with
    | Except.ok v => (Except.ok v, 1, [])
    | Except.error e =>
      if caughtErr e then
        if r = 0 then (Except.error (.enrichmentError (errMsg e)), 1, [])
        else
          let t := attemptLoop body backoff (k + 1) r (some (errMsg e))
          (t.1, t.2.1 + 1, backoff :: t.2.2)
      else (Except.error e, 1, [])

/-- `enrich_job`, returning the outcome together with the attempt count
and the sleeps issued.  Disabled enrichment short-circuits to an empty
mapping; the prompt and header errors precede any attempt. -/
def enrich_job (cfg : AIConfig) (jsonLoads : String → Except String JVal)
    (net : Nat → String → List (String × String) → JVal → Except String JVal)
    (posting : List (String × JVal)) :
    Except PyErr (List (String × JVal)) × Nat × List ℚ :=
  if cfg.enrichmentEnabled = false then (Except.ok [], 0, [])
  else
    match buildPrompt cfg posting with
    | Except.error e => (Except.error e, 0, [])
    | Except.ok prompt =>
      match requestHeaders cfg with
      | Except.error e => (Except.error e, 0, [])
      | Except.ok headers =>
        attemptLoop (attemptOf cfg jsonLoads net prompt headers)
          cfg.retryBackoffSeconds 1 (maxAttemptsOf cfg) none

/-- `enrich_job` unfolded to its retry loop on a workable configuration. -/
theorem enrich_job_eq (cfg : AIConfig) (jsonLoads : String → Except String JVal)
    (net : Nat → String → List (String × String) → JVal → Except String JVal)
    (posting : List (String × JVal)) (p : PromptPayload)
    (hd : List (String × String))
    (hen : cfg.enrichmentEnabled = true)
    (hp : buildPrompt cfg posting = Except.ok p)
    (hh : requestHeaders cfg = Except.ok hd) :
    enrich_job cfg jsonLoads net posting =
      attemptLoop (attemptOf cfg jsonLoads net p hd) cfg.retryBackoffSeconds 1
        (maxAttemptsOf cfg) none := by
  rw [enrich_job, if_neg (by rw [hen]; simp), hp, hh]

/-- Exhausting the loop on caught errors: the last error's text is
raised as `EnrichmentError` after exactly `r` attempts with a backoff
sleep between consecutive attempts and none after the last. -/
theorem attemptLoop_all_caught (body : Nat → Except PyErr (List (String × JVal)))
    (backoff : ℚ) (errs : Nat → PyErr) :
    ∀ (r k : Nat), 1 ≤ r →
      (∀ i, k ≤ i → i < k + r → body i = Except.error (errs i) ∧
        caughtErr (errs i) = true) →
      ∀ last, attemptLoop body backoff k r last =
        (Except.error (.enrichmentError (errMsg (errs (k + r - 1)))), r,
         List.replicate (r - 1) backoff) := by
  intro r
  induction r with
  | zero => intro k hr; exact absurd hr (by omega)
  | succ r ih =>
    intro k hr hall last
    obtain ⟨hb, hc⟩ := hall k (le_refl k) (by omega)
    rcases Nat.eq_zero_or_pos r with hr0 | hrpos
    · subst hr0
      simp [attemptLoop, hb, hc]
    · have hrne : r ≠ 0 := by omega
      have ihr := ih (k + 1) hrpos
        (fun i h1 h2 => hall i (by omega) (by omega)) (some (errMsg (errs k)))
      simp only [attemptLoop, hb, hc, if_pos, if_neg hrne, ihr]
      have h1 : k + 1 + r - 1 = k + (r + 1) - 1 := by omega
      have h2 : r - 1 + 1 = r := by omega
      rw [h1]
      refine Prod.ext rfl (Prod.ext rfl ?_)
      show backoff :: List.replicate (r - 1) backoff = List.replicate (r + 1 - 1) backoff
      rw [← List.replicate_succ, h2]
      simp

theorem attemptLoop_attempts_pos (body : Nat → Except PyErr (List (String × JVal)))
    (backoff : ℚ) (k r : Nat) (last : Option String) (hr : 1 ≤ r) :
    1 ≤ (attemptLoop body backoff k r last).2.1 := by
  rcases r with _ | r
  · omega
  · rcases hb : body k with e | v
    · by_cases hc : caughtErr e = true
      · rcases Nat.eq_zero_or_pos r with hr0 | hrpos
        · subst hr0
          simp [attemptLoop, hb, hc]
        · have hrne : r ≠ 0 := by omega
          simp [attemptLoop, hb, hc, hrne]
      · simp [attemptLoop, hb, hc]
    · simp [attemptLoop, hb]

theorem attemptLoop_attempts_one (body : Nat → Except PyErr (List (String × JVal)))
    (backoff : ℚ) (k : Nat) (last : Option String) :
    (attemptLoop body backoff k 1 last).2.1 = 1 := by
  rcases hb : body k with e | v
  · by_cases hc : caughtErr e = true
    · simp [attemptLoop, hb, hc]
    · simp [attemptLoop, hb, hc]
  · simp [attemptLoop, hb]

theorem maxAttemptsOf_pos (cfg : AIConfig) : 1 ≤ maxAttemptsOf cfg := by
  have h : (1 : Int) ≤ max 1 cfg.maxRetries := le_max_left _ _
  unfold maxAttemptsOf
  omega

/-! ### Claim C9 -/

/-- Configuration for the C9 refutation: enrichment on, three retries
configured, a fixed backoff of two seconds, a workable prompt and key. -/
def c9Cfg : AIConfig :=
  { enrichmentEnabled := true, provider := none, model := "gpt",
    apiKey := some ("key"), org := none, baseUrl := none, completionsUrl := none,
    temperature := 0, timeout := 30, maxRetries := 3, retryBackoffSeconds := 2,
    responseFormatJson := true,
    promptTemplates := [("system", "sys"), ("user", "evaluate this job")] }

/-- Network behaviour for the C9 refutation: every attempt receives the
HTTP 200 body `[]` — a response that is not the expected structure. -/
def c9NetArr : Nat → String → List (String × String) → JVal → Except String JVal :=
  fun _ _ _ _ => Except.ok (JVal.arr [])

/-- `json.loads` stand-in for the C9 refutation (never reached). -/
def c9Loads : String → Except String JVal := fun _ => Except.error ("unused")

/-- C9, counterexample.  The claim covers every response "that cannot be
parsed as the expected structure", and promises `max_attempts` attempts
ending in one `EnrichmentError`.  When every response body is the JSON
array `[]`, `data.get ("choices")` raises `AttributeError`, which the
`except (RequestException, ValueError, KeyError)` clause does not catch:
the loop stops after one attempt (not the configured three), sleeps
never, and the propagated error is not an `EnrichmentError`. -/
theorem c9_uncaught_error_skips_retries :
    enrich_job c9Cfg c9Loads c9NetArr [] =
      (Except.error (.attributeError
        ("\x27list\x27 object has no attribute \x27get\x27")), 1, []) ∧
    maxAttemptsOf c9Cfg = 3 ∧
    (∀ m, PyErr.attributeError ("\x27list\x27 object has no attribute \x27get\x27") ≠
      PyErr.enrichmentError m) ∧
    (1 : Nat) ≠ 3 := by
  refine ⟨rfl, rfl, ?_, by decide⟩
  intro m heq
  exact PyErr.noConfusion heq

/-- C9, amended.  With enrichment enabled and a workable configuration
(user template set, API key present), if every attempt up to the
effective maximum fails with an error the loop catches — a request-level
error, a missing or falsy `choices` entry, non-text content, or content
that is blank or fails JSON decoding — then `enrich_job` performs exactly
`max (1, AI_MAX_RETRIES)` attempts, sleeps the configured fixed backoff
between consecutive attempts but not after the last, and raises a single
`EnrichmentError` carrying the last error's text.  Blank message content
is such a caught failure: it raises the parse `ValueError` rather than
yielding empty fields. -/
theorem c9_retry_exhaustion_amended
    (cfg : AIConfig) (jsonLoads : String → Except String JVal)
    (net : Nat → String → List (String × String) → JVal → Except String JVal)
    (posting : List (String × JVal)) (p : PromptPayload)
    (hd : List (String × String)) (errs : Nat → PyErr)
    (hen : cfg.enrichmentEnabled = true)
    (hp : buildPrompt cfg posting = Except.ok p)
    (hh : requestHeaders cfg = Except.ok hd)
    (hall : ∀ i, 1 ≤ i → i ≤ maxAttemptsOf cfg →
      attemptOf cfg jsonLoads net p hd i = Except.error (errs i) ∧
      caughtErr (errs i) = true) :
    enrich_job cfg jsonLoads net posting =
      (Except.error (.enrichmentError (errMsg (errs (maxAttemptsOf cfg)))),
       maxAttemptsOf cfg,
       List.replicate (maxAttemptsOf cfg - 1) cfg.retryBackoffSeconds) ∧
    (∀ (jl : String → Except String JVal) (content : String),
      stripStr content = blank →
      parseResponseContent jl content =
        Except.error (.valueError ("Empty response from AI provider"))) := by
  constructor
  · rw [enrich_job_eq cfg jsonLoads net posting p hd hen hp hh]
    have h := attemptLoop_all_caught (attemptOf cfg jsonLoads net p hd)
      cfg.retryBackoffSeconds errs (maxAttemptsOf cfg) 1 (maxAttemptsOf_pos cfg)
      (fun i h1 h2 => hall i h1 (by omega)) none
    rw [h]
    have : 1 + maxAttemptsOf cfg - 1 = maxAttemptsOf cfg := by omega
    rw [this]
  · intro jl content hc
    simp [parseResponseContent, hc]

/-- Configuration for the C9 witness: two retries, no backoff wait
modelled as one second. -/
def c9WCfg : AIConfig :=
  { enrichmentEnabled := true, provider := none, model := "gpt-test",
    apiKey := some ("api-key"), org := none, baseUrl := none,
    completionsUrl := none, temperature := 0, timeout := 5, maxRetries := 2,
    retryBackoffSeconds := 1, responseFormatJson := true,
    promptTemplates := [("system", "system"), ("user", "judge the posting")] }

/-- Network behaviour for the C9 witness: every request raises. -/
def c9WNet : Nat → String → List (String × String) → JVal → Except String JVal :=
  fun _ _ _ _ => Except.error ("boom")

/-- C9 witness: two failing attempts, one sleep, a single
`EnrichmentError` carrying the last error's text. -/
theorem c9_retry_exhaustion_amended_witness :
    enrich_job c9WCfg c9Loads c9WNet [] =
      (Except.error (.enrichmentError ("boom")), 2, [1]) ∧
    (∀ (jl : String → Except String JVal) (content : String),
      stripStr content = blank →
      parseResponseContent jl content =
        Except.error (.valueError ("Empty response from AI provider"))) := by
  have h := c9_retry_exhaustion_amended c9WCfg c9Loads c9WNet []
    ⟨"system", "judge the posting"⟩
    [("Content-Type", "application/json"), ("Authorization", "Bearer api-key")]
    (fun _ => PyErr.requestError ("boom")) rfl rfl rfl
    (fun i h1 h2 => ⟨rfl, rfl⟩)
  exact h

/-! ### Claim C10 -/

/-- C10: with enrichment enabled and a workable configuration the loop
always performs at least one attempt, and a zero or negative configured
retry count behaves as exactly one attempt (`max (1, AI_MAX_RETRIES)`),
so a non-positive setting never lets the call fail or succeed without
issuing the request. -/
theorem c10_at_least_one_attempt
    (cfg : AIConfig) (jsonLoads : String → Except String JVal)
    (net : Nat → String → List (String × String) → JVal → Except String JVal)
    (posting : List (String × JVal)) (p : PromptPayload)
    (hd : List (String × String))
    (hen : cfg.enrichmentEnabled = true)
    (hp : buildPrompt cfg posting = Except.ok p)
    (hh : requestHeaders cfg = Except.ok hd) :
    1 ≤ maxAttemptsOf cfg ∧
    1 ≤ (enrich_job cfg jsonLoads net posting).2.1 ∧
    (cfg.maxRetries ≤ 0 → maxAttemptsOf cfg = 1 ∧
      (enrich_job cfg jsonLoads net posting).2.1 = 1) := by
  have hone : maxAttemptsOf cfg = 1 → (enrich_job cfg jsonLoads net posting).2.1 = 1 := by
    intro h1
    rw [enrich_job_eq cfg jsonLoads net posting p hd hen hp hh, h1]
    exact attemptLoop_attempts_one _ _ _ _
  refine ⟨maxAttemptsOf_pos cfg, ?_, ?_⟩
  · rw [enrich_job_eq cfg jsonLoads net posting p hd hen hp hh]
    exact attemptLoop_attempts_pos _ _ _ _ _ (maxAttemptsOf_pos cfg)
  · intro hneg
    have h1 : maxAttemptsOf cfg = 1 := by
      have : max 1 cfg.maxRetries = 1 := max_eq_left (by omega)
      unfold maxAttemptsOf
      rw [this]
      rfl
    exact ⟨h1, hone h1⟩

/-- Configuration for the C10 witness: a negative retry count. -/
def c10Cfg : AIConfig :=
  { enrichmentEnabled := true, provider := none, model := "gpt",
    apiKey := some ("key"), org := none, baseUrl := none, completionsUrl := none,
    temperature := 0, timeout := 30, maxRetries := -2, retryBackoffSeconds := 2,
    responseFormatJson := true, promptTemplates := [("user", "hello")] }

/-- Network behaviour for the C10 witness: the request fails. -/
def c10Net : Nat → String → List (String × String) → JVal → Except String JVal :=
  fun _ _ _ _ => Except.error ("down")

/-- `json.loads` stand-in for the C10 witness (never reached). -/
def c10Loads : String → Except String JVal := fun _ => Except.error ("unused")

/-- C10 witness: with `AI_MAX_RETRIES = -2` exactly one attempt is
performed. -/
theorem c10_at_least_one_attempt_witness :
    1 ≤ maxAttemptsOf c10Cfg ∧
    1 ≤ (enrich_job c10Cfg c10Loads c10Net []).2.1 ∧
    (c10Cfg.maxRetries ≤ 0 → maxAttemptsOf c10Cfg = 1 ∧
      (enrich_job c10Cfg c10Loads c10Net []).2.1 = 1) :=
  c10_at_least_one_attempt c10Cfg c10Loads c10Net [] ⟨blank, "hello"⟩
    [("Content-Type", "application/json"), ("Authorization", "Bearer key")]
    rfl rfl rfl

end JobSpec
